import Mathlib

/-
  Verification development for the DarwinFfmpegArcana FIFO core and pooled
  command objects.

  The definitions below are a shallow sequential embedding of:
    - fifo/circular_fifo.hpp        (circular_fifo, watermarks, preempt)
    - fifo/bound_fifo_impl.hpp      (sproqet_generic_waitable_fifo)
    - fifo/sproqet_defines.hpp      (result codes)
    - ff_cmd.cpp / include/ff_cmd.h (FFCmd, FFCmdPool, command FIFO wrapper)

  Conventions of the embedding:
    - machine ints are modelled as Int (counts, watermarks, result codes) or
      Nat (indices, which the source keeps in [0, capacity) at all times);
    - the C++ element array is a total function Nat -> E updated pointwise;
    - callbacks (watermark handlers, head monitor) are modelled by Bool
      presence flags plus Bool event fields in the operation results, since
      the handlers themselves are opaque C function pointers;
    - semaphores are modelled by their counts (Nat); a wait that would block
      is modelled as returning no result (Option);
    - the atomic index pair (_head/_tail) of the lockless mode and the
      mutex-protected pair (_nahead/_natail) of the blocking mode are merged
      into a single head/tail pair: sequentially only the pair selected by
      the mode is ever consulted, and both start at 0.
-/

namespace Arcana

/-- Result codes from fifo/sproqet_defines.hpp. -/
def SPR_OK : Int := 0

def SPR_INVALID_PARAMETERS : Int := 1

def SPR_FLOWDISABLED : Int := 13

def SPR_FIFOFULL : Int := 29

/-- SP_Circular_Fifo_Mode from circular_fifo.hpp. -/
inductive SP_Circular_Fifo_Mode where
  | singleProducerLockless
  | blocking

/-- State of circular_fifo<Element> (circular_fifo.hpp).  The fields keep the
source names without their leading underscore.  `hasHighHandler` and
`hasLowHandler` record whether the corresponding watermark handler function
pointer is non-null; `hasHeadMonitor` records whether a head monitor is set. -/
structure circular_fifo (E : Type) where
  mode : SP_Circular_Fifo_Mode
  capacity : Nat
  tail : Nat
  head : Nat
  arr : Nat → E
  count : Int
  highWaterMark : Int
  lowWaterMark : Int
  hasHighHandler : Bool
  hasLowHandler : Bool
  hasHeadMonitor : Bool

namespace circular_fifo

variable {E : Type}

/-- The constructor circular_fifo(fifoSize, mode): capacity is fifoSize + 1,
indices and count start at 0, watermarks start at -1 with no handlers. -/
def create [Inhabited E] (fifoSize : Nat) (mode : SP_Circular_Fifo_Mode) : circular_fifo E :=
  { mode := mode
    capacity := fifoSize + 1
    tail := 0
    head := 0
    arr := fun _ => default
    count := 0
    highWaterMark := -1
    lowWaterMark := -1
    hasHighHandler := false
    hasLowHandler := false
    hasHeadMonitor := false }

/-- increment(idx) = (idx + 1) % _capacity. -/
def increment (r : circular_fifo E) (idx : Nat) : Nat :=
  (idx + 1) % r.capacity

/-- decrement(idx) = (idx - 1) < 0 ? _capacity - 1 : idx - 1.  On the
non-negative indices the source maintains, (idx - 1) < 0 holds exactly when
idx = 0. -/
def decrement (r : circular_fifo E) (idx : Nat) : Nat :=
  if idx = 0 then r.capacity - 1 else idx - 1

/-- setWaterMarkHandler(high, highHandler, low, lowHandler, data): stores the
thresholds and records handler presence. -/
def setWaterMarkHandler (r : circular_fifo E) (high : Int) (highHandler : Bool)
    (low : Int) (lowHandler : Bool) : circular_fifo E :=
  { r with
    lowWaterMark := low
    highWaterMark := high
    hasLowHandler := lowHandler
    hasHighHandler := highHandler }

/-- Result of push: the new state, the return value, whether the head monitor
condition (newHead) was raised, and whether the high-watermark handler was
invoked. -/
structure PushResult (E : Type) where
  state : circular_fifo E
  ok : Bool
  newHead : Bool
  firedHigh : Bool

/-- push(item).  In both modes the stored count read before the increment
(the fetch_add return value f) is compared against _highWaterMark + 1.
In lockless mode newHead is set when f was 0; in blocking mode it is set
when the indices were equal before the push. -/
def push (r : circular_fifo E) (item : E) : PushResult E :=
  match r.mode with
  | .singleProducerLockless =>
    let current_tail := r.tail
    let next_tail := r.increment current_tail
    if next_tail ≠ r.head then
      let f := r.count
      let r2 := { r with
        arr := fun i => if i = current_tail then item else r.arr i
        tail := next_tail
        count := r.count + 1 }
      { state := r2
        ok := true
        newHead := decide (f = 0)
        firedHigh := r.hasHighHandler && decide (f = r.highWaterMark + 1) }
    else
      { state := r, ok := false, newHead := false, firedHigh := false }
  | .blocking =>
    let newHead := decide (r.tail = r.head)
    let current_tail := r.tail
    let next_tail := r.increment current_tail
    if next_tail ≠ r.head then
      let f := r.count
      let r2 := { r with
        arr := fun i => if i = current_tail then item else r.arr i
        tail := next_tail
        count := r.count + 1 }
      { state := r2
        ok := true
        newHead := newHead
        firedHigh := r.hasHighHandler && decide (f = r.highWaterMark + 1) }
    else
      { state := r, ok := false, newHead := false, firedHigh := false }

/-- Result of preempt: the new state and the return value.  On success the
head monitor fires unconditionally (when present); preempt consults no
watermark. -/
structure PreemptResult (E : Type) where
  state : circular_fifo E
  ok : Bool

/-- preempt(item).  Sequentially the lockless and blocking branches perform
the same update: compute next_head = decrement(head); if it collides with
tail the ring is full, otherwise store there, move head back and bump count. -/
def preempt (r : circular_fifo E) (item : E) : PreemptResult E :=
  let current_head := r.head
  let next_head := r.decrement current_head
  if next_head ≠ r.tail then
    { state := { r with
        arr := fun i => if i = next_head then item else r.arr i
        head := next_head
        count := r.count + 1 }
      ok := true }
  else
    { state := r, ok := false }

/-- Result of pop: the new state, the return value, the element copied out
(none when the ring was empty), and whether the low-watermark handler was
invoked. -/
structure PopResult (E : Type) where
  state : circular_fifo E
  ok : Bool
  item : Option E
  firedLow : Bool

/-- pop(item, userdata).  The two modes differ in the low-watermark test:
the lockless branch compares the fetch_sub return value f (the count BEFORE
the decrement) with _lowWaterMark - 1, while the blocking branch compares
newHead = f - 1 (the count AFTER the decrement) with _lowWaterMark - 1. -/
def pop (r : circular_fifo E) : PopResult E :=
  match r.mode with
  | .singleProducerLockless =>
    let current_head := r.head
    if current_head = r.tail then
      { state := r, ok := false, item := none, firedLow := false }
    else
      let v := r.arr current_head
      let f := r.count
      let r2 := { r with head := r.increment current_head, count := r.count - 1 }
      { state := r2
        ok := true
        item := some v
        firedLow := r.hasLowHandler && decide (f = r.lowWaterMark - 1) }
  | .blocking =>
    let current_head := r.head
    if current_head = r.tail then
      { state := r, ok := false, item := none, firedLow := false }
    else
      let v := r.arr current_head
      let newHead := r.count - 1
      let r2 := { r with head := r.increment current_head, count := r.count - 1 }
      { state := r2
        ok := true
        item := some v
        firedLow := r.hasLowHandler && decide (newHead = r.lowWaterMark - 1) }

/-- storedCount() = _count. -/
def storedCount (r : circular_fifo E) : Int := r.count

end circular_fifo

/-
  Counting semaphore (default_semaphore_impl), modelled by its count.
  Post increments and returns 0; TryWait returns 0 and decrements when the
  count is positive and returns 1 otherwise; Wait returns 0 after
  decrementing when the count is positive, and blocks otherwise (no result
  in this sequential model); Reset drains the count to zero by repeated
  TryWait.
-/

/-- Semaphore Post: increment the count (returns 0). -/
def semPost (c : Nat) : Nat := c + 1

/-- Semaphore TryWait: (return value, new count). -/
def semTryWait (c : Nat) : Int × Nat :=
  if c = 0 then (1, c) else (0, c - 1)

/-- Semaphore Wait: none when the wait would block, otherwise the 0 return
value and the decremented count. -/
def semWait (c : Nat) : Option (Int × Nat) :=
  if c = 0 then none else some (0, c - 1)

/-- Semaphore Reset: while(!TryWait()) {} leaves the count at 0. -/
def semReset (_ : Nat) : Nat := 0

/-- State of sproqet_generic_waitable_fifo<Element, SemaphoreType>
(bound_fifo_impl.hpp).  `readSem` is `none` when the FIFO was constructed
with readSemaphore = false.  The `_canUnwait`, `_tag`, `_userData` and head
monitor plumbing do not affect any claimed behaviour and are omitted. -/
structure sproqet_generic_waitable_fifo (E : Type) where
  elements : circular_fifo E
  readSem : Option Nat
  writeSem : Nat
  maxPackets : Nat
  flowEnabled : Bool
  hasBeenRead : Bool

namespace sproqet_generic_waitable_fifo

variable {E : Type}

/-- The constructor: write_sem starts at maxPackets, read_sem (when present)
at 0, flow disabled, the ring sized maxPackets, hasBeenRead false. -/
def create [Inhabited E] (maxPackets : Nat) (readSemaphore : Bool)
    (mode : SP_Circular_Fifo_Mode) : sproqet_generic_waitable_fifo E :=
  { elements := circular_fifo.create maxPackets mode
    readSem := if readSemaphore then some 0 else none
    writeSem := maxPackets
    maxPackets := maxPackets
    flowEnabled := false
    hasBeenRead := false }

/-- _signalRead(): post the read semaphore when present. -/
def signalRead (f : sproqet_generic_waitable_fifo E) : sproqet_generic_waitable_fifo E :=
  match f.readSem with
  | some c => { f with readSem := some (semPost c) }
  | none => f

/-- _signalWrite(): post the write semaphore. -/
def signalWrite (f : sproqet_generic_waitable_fifo E) : sproqet_generic_waitable_fifo E :=
  { f with writeSem := semPost f.writeSem }

/-- _popPacket(): Element retv = Element{}; pop into it (ignoring the pop
return value); signal write space; return retv. -/
def popPacket [Inhabited E] (f : sproqet_generic_waitable_fifo E) :
    E × sproqet_generic_waitable_fifo E :=
  let pr := f.elements.pop
  let retv := pr.item.getD default
  (retv, signalWrite { f with elements := pr.state })

/-- _pushPacket(packet): push onto the ring; on success signal read and
return SPR_OK, otherwise SPR_FIFOFULL. -/
def pushPacket (f : sproqet_generic_waitable_fifo E) (packet : E) :
    Int × sproqet_generic_waitable_fifo E :=
  let pr := f.elements.push packet
  let f2 := { f with elements := pr.state }
  if pr.ok then (SPR_OK, signalRead f2) else (SPR_FIFOFULL, f2)

/-- read(element): pop (success or not), latch _hasBeenRead, return 1.
The result is (return value, element written to the out-parameter, state). -/
def read [Inhabited E] (f : sproqet_generic_waitable_fifo E) :
    Int × E × sproqet_generic_waitable_fifo E :=
  let p := popPacket f
  (1, p.1, { p.2 with hasBeenRead := true })

/-- write(element): SPR_FLOWDISABLED when flow is off, else _pushPacket. -/
def write (f : sproqet_generic_waitable_fifo E) (element : E) :
    Int × sproqet_generic_waitable_fifo E :=
  if !f.flowEnabled then (SPR_FLOWDISABLED, f) else pushPacket f element

/-- preempt(element): SPR_FLOWDISABLED when flow is off; else ring preempt,
signalling read on success; SPR_FIFOFULL on a full ring. -/
def preempt (f : sproqet_generic_waitable_fifo E) (element : E) :
    Int × sproqet_generic_waitable_fifo E :=
  if !f.flowEnabled then (SPR_FLOWDISABLED, f)
  else
    let pr := f.elements.preempt element
    let f2 := { f with elements := pr.state }
    if pr.ok then (SPR_OK, signalRead f2) else (SPR_FIFOFULL, f2)

/-- waitForReadData(): when a read semaphore exists return _readSem->Wait()
(no flow check on this path); when absent return SPR_FLOWDISABLED. -/
def waitForReadData (f : sproqet_generic_waitable_fifo E) :
    Option (Int × sproqet_generic_waitable_fifo E) :=
  match f.readSem with
  | some c =>
    match semWait c with
    | none => none
    | some (v, c2) => some (v, { f with readSem := some c2 })
  | none => some (SPR_FLOWDISABLED, f)

/-- tryWaitForReadData(): 0 when no read semaphore exists, else TryWait. -/
def tryWaitForReadData (f : sproqet_generic_waitable_fifo E) :
    Int × sproqet_generic_waitable_fifo E :=
  match f.readSem with
  | none => (0, f)
  | some c =>
    let p := semTryWait c
    (p.1, { f with readSem := some p.2 })

/-- tryWaitForWriteData(): flow check, TryWait on the write semaphore, flow
check again (sequentially the second check sees the same flag). -/
def tryWaitForWriteData (f : sproqet_generic_waitable_fifo E) :
    Int × sproqet_generic_waitable_fifo E :=
  if !f.flowEnabled then (SPR_FLOWDISABLED, f)
  else
    let p := semTryWait f.writeSem
    let f2 := { f with writeSem := p.2 }
    if !f2.flowEnabled then (SPR_FLOWDISABLED, f2)
    else (p.1, f2)

/-- waitForWriteSpace(): SPR_FLOWDISABLED when flow is off; else wait on the
write semaphore and re-check the flag after waking. -/
def waitForWriteSpace (f : sproqet_generic_waitable_fifo E) :
    Option (Int × sproqet_generic_waitable_fifo E) :=
  if !f.flowEnabled then some (SPR_FLOWDISABLED, f)
  else
    match semWait f.writeSem with
    | none => none
    | some (_, c2) =>
      let f2 := { f with writeSem := c2 }
      some (if f2.flowEnabled then SPR_OK else SPR_FLOWDISABLED, f2)

/-- waitForReadDataTimed(msecs): 0 when no read semaphore exists; for
msecs < 1 an untimed waitForReadData whose value is discarded (returns 0);
otherwise _readSem->WaitTimed(msecs), whose success path (count positive)
returns 0.  A wait that would block (count 0) yields no result here: its
eventual timeout code is platform-specific. -/
def waitForReadDataTimed (f : sproqet_generic_waitable_fifo E) (msecs : Int) :
    Option (Int × sproqet_generic_waitable_fifo E) :=
  match f.readSem with
  | none => some (0, f)
  | some c =>
    if msecs < 1 then
      match semWait c with
      | none => none
      | some (_, c2) => some (0, { f with readSem := some c2 })
    else
      match semWait c with
      | none => none
      | some (v, c2) => some (v, { f with readSem := some c2 })

/-- waitForWriteSpaceTimed(msecs): msecs < 1 degenerates to
waitForWriteSpace; otherwise flow check, timed wait on the write semaphore
(success path only, as above), flow re-check. -/
def waitForWriteSpaceTimed (f : sproqet_generic_waitable_fifo E) (msecs : Int) :
    Option (Int × sproqet_generic_waitable_fifo E) :=
  if msecs < 1 then waitForWriteSpace f
  else
    if !f.flowEnabled then some (SPR_FLOWDISABLED, f)
    else
      match semWait f.writeSem with
      | none => none
      | some (v, c2) =>
        let f2 := { f with writeSem := c2 }
        if !f2.flowEnabled then some (SPR_FLOWDISABLED, f2)
        else some (v, f2)

/-- setFlowEnabled(enabled): no-op when the flag already matches; enabling
just sets the flag; disabling clears it and then unsticks waiters: post then
reset the write semaphore when the ring is full, post then reset the read
semaphore (when present) when the ring is empty. -/
def setFlowEnabled (f : sproqet_generic_waitable_fifo E) (enabled : Bool) :
    sproqet_generic_waitable_fifo E :=
  if (f.flowEnabled = false && enabled = false) || (f.flowEnabled = true && enabled = true) then
    f
  else if enabled then
    { f with flowEnabled := true }
  else
    let f1 := { f with flowEnabled := false }
    let pcount := f1.elements.storedCount
    let cap := f1.elements.capacity
    let f2 :=
      if pcount = (cap : Int) - 1 then
        { f1 with writeSem := semReset (semPost f1.writeSem) }
      else f1
    if pcount = 0 then
      match f2.readSem with
      | some c => { f2 with readSem := some (semReset (semPost c)) }
      | none => f2
    else f2

/-- getFlowEnabled(). -/
def getFlowEnabled (f : sproqet_generic_waitable_fifo E) : Bool := f.flowEnabled

/-- storedCount(): forwards to the ring. -/
def storedCount (f : sproqet_generic_waitable_fifo E) : Int := f.elements.storedCount

/-- hasBeenRead(). -/
def getHasBeenRead (f : sproqet_generic_waitable_fifo E) : Bool := f.hasBeenRead

end sproqet_generic_waitable_fifo

/-
  Pooled command structures (include/ff_cmd.h, ff_cmd.cpp).

  Pointers are modelled as `Option Nat` (none = NULL, some n = a concrete
  address/identity).  A command cell is identified by its index in the
  pool's `cells` list (allocation order); the C free list of `_next` links
  is the `freeList` list of cell indices, head first.  The payload adapter
  IFFRefCounted* is modelled by `Option Nat` (an adapter identity); the
  adapters shipped in this repository (cmd, frame, packet vtables) all carry
  non-null AddRef and Release function pointers, so adapter presence implies
  both calls are available.  Adapter invocations are recorded in a CmdEnv
  ledger counting AddRef and Release calls per payload pointer.
-/

/-- FFCmdType values (C enum). -/
def FF_CMD_NONE : Nat := 0

def FF_CMD_FRAME : Nat := 1

def FF_CMD_PACKET : Nat := 2

def FF_CMD_FLUSH : Nat := 3

def FF_CMD_EOS : Nat := 4

/-- Command FIFO result codes from include/ff_cmd.h. -/
def FF_CMD_FIFO_OK : Int := 0

def FF_CMD_FIFO_INVALID_PARAMS : Int := 1

def FF_CMD_FIFO_FLOW_DISABLED : Int := 13

/-- The FFCmd record.  The `_pool` back link is implicit (cells live inside
their pool) and `_next` is represented by the pool's freeList. -/
structure FFCmd where
  type : Nat
  data : Option Nat
  dataRef : Option Nat
  pts : Int
  dts : Int
  flags : Nat
  streamIndex : Nat
  userData : Option Nat
  refcount : Int

/-- A freshly calloc-ed, zeroed cell (as in ff_cmd_pool_create /
ff_cmd_pool_acquire before field initialization). -/
def callocCmd : FFCmd :=
  { type := FF_CMD_NONE
    data := none
    dataRef := none
    pts := 0
    dts := 0
    flags := 0
    streamIndex := 0
    userData := none
    refcount := 0 }

/-- FFCmdPool state. -/
structure FFCmdPool where
  cells : List FFCmd
  freeList : List Nat
  totalCount : Nat
  freeCount : Nat
  maxSize : Nat

/-- Ledger of adapter calls per payload pointer. -/
structure CmdEnv where
  addRefCalls : Nat → Nat
  releaseCalls : Nat → Nat

/-- The empty ledger. -/
def CmdEnv.empty : CmdEnv :=
  { addRefCalls := fun _ => 0, releaseCalls := fun _ => 0 }

/-- Bump a per-pointer counter. -/
def bump (f : Nat → Nat) (p : Nat) : Nat → Nat :=
  fun q => if q = p then f q + 1 else f q

namespace FFCmdPool

/-- Read a cell by id (out-of-range reads never occur on reachable pools). -/
def getCell (p : FFCmdPool) (id : Nat) : FFCmd :=
  p.cells.getD id callocCmd

/-- Write a cell by id. -/
def setCell (p : FFCmdPool) (id : Nat) (c : FFCmd) : FFCmdPool :=
  { p with cells := p.cells.set id c }

end FFCmdPool

/-- ff_cmd_pool_create(initial_size, max_size): pre-allocate initial_size
zeroed cells, each pushed onto the free list (so the last allocated cell is
the free-list head), counting them in total_count and free_count.  calloc is
modelled as always succeeding. -/
def ff_cmd_pool_create (initialSize maxSize : Nat) : FFCmdPool :=
  (List.range initialSize).foldl
    (fun p _ =>
      let id := p.cells.length
      { cells := p.cells ++ [callocCmd]
        freeList := id :: p.freeList
        totalCount := p.totalCount + 1
        freeCount := p.freeCount + 1
        maxSize := p.maxSize })
    { cells := [], freeList := [], totalCount := 0, freeCount := 0, maxSize := maxSize }

/-- The field initialization ff_cmd_pool_acquire performs under `if (cmd)`:
refcount 1, type NONE, every payload and metadata field cleared. -/
def acquireInit (c : FFCmd) : FFCmd :=
  { c with
    refcount := 1
    type := FF_CMD_NONE
    data := none
    dataRef := none
    pts := 0
    dts := 0
    flags := 0
    streamIndex := 0
    userData := none }

/-- ff_cmd_pool_acquire(pool): pop the free list head when non-empty;
otherwise allocate a new cell when max_size == 0 or total_count < max_size
(incrementing total_count); otherwise return null.  Any returned cell is
re-initialized by acquireInit. -/
def ff_cmd_pool_acquire (p : FFCmdPool) : Option Nat × FFCmdPool :=
  match p.freeList with
  | id :: rest =>
    let p2 := { p with freeList := rest, freeCount := p.freeCount - 1 }
    (some id, p2.setCell id (acquireInit (p2.getCell id)))
  | [] =>
    if p.maxSize = 0 ∨ p.totalCount < p.maxSize then
      let id := p.cells.length
      (some id, { p with cells := p.cells ++ [acquireInit callocCmd], totalCount := p.totalCount + 1 })
    else
      (none, p)

/-- ff_cmd_pool_return(pool, cmd): reset the command's visible fields
(refcount is NOT touched here) and push it onto the free list. -/
def ff_cmd_pool_return (p : FFCmdPool) (id : Nat) : FFCmdPool :=
  let c := p.getCell id
  let c2 := { c with
    type := FF_CMD_NONE
    data := none
    dataRef := none
    pts := 0
    dts := 0
    flags := 0
    streamIndex := 0
    userData := none }
  let p2 := p.setCell id c2
  { p2 with freeList := id :: p2.freeList, freeCount := p2.freeCount + 1 }

/-- ff_cmd_clear_data(cmd): when both a payload and an adapter are present,
call the adapter's Release on the payload; then null both fields. -/
def ff_cmd_clear_data (env : CmdEnv) (c : FFCmd) : CmdEnv × FFCmd :=
  let env2 :=
    match c.data, c.dataRef with
    | some q, some _ => { env with releaseCalls := bump env.releaseCalls q }
    | _, _ => env
  (env2, { c with data := none, dataRef := none })

/-- ff_cmd_set_data(cmd, data, data_ref): clear any existing payload, store
the new pair, and when both the new payload and the adapter are non-null,
call the adapter's AddRef on the new payload. -/
def ff_cmd_set_data (env : CmdEnv) (c : FFCmd) (data : Option Nat) (dataRef : Option Nat) :
    CmdEnv × FFCmd :=
  let p1 := ff_cmd_clear_data env c
  let c2 := { p1.2 with data := data, dataRef := dataRef }
  let env2 :=
    match data, dataRef with
    | some q, some _ => { p1.1 with addRefCalls := bump p1.1.addRefCalls q }
    | _, _ => p1.1
  (env2, c2)

/-- ff_cmd_init(cmd, type): clear the data, then set the type and zero the
metadata.  Does not touch the refcount. -/
def ff_cmd_init (env : CmdEnv) (c : FFCmd) (t : Nat) : CmdEnv × FFCmd :=
  let p1 := ff_cmd_clear_data env c
  (p1.1, { p1.2 with
    type := t
    pts := 0
    dts := 0
    flags := 0
    streamIndex := 0
    userData := none })

/-- cmd_addref(cmd): atomically increment the refcount, returning the new
value. -/
def cmd_addref (p : FFCmdPool) (id : Nat) : Int × FFCmdPool :=
  let c := p.getCell id
  let c2 := { c with refcount := c.refcount + 1 }
  (c2.refcount, p.setCell id c2)

/-- cmd_release(cmd): decrement the refcount; when it reaches 0, first
ff_cmd_clear_data (releasing any payload) and then ff_cmd_pool_return. -/
def cmd_release (env : CmdEnv) (p : FFCmdPool) (id : Nat) : Int × CmdEnv × FFCmdPool :=
  let c := p.getCell id
  let count := c.refcount - 1
  let p1 := p.setCell id { c with refcount := count }
  if count = 0 then
    let q := ff_cmd_clear_data env (p1.getCell id)
    let p2 := p1.setCell id q.2
    (count, q.1, ff_cmd_pool_return p2 id)
  else
    (count, env, p1)

/-
  The command FIFO C wrapper (ff_cmd.cpp) instantiates the waitable FIFO at
  Element = FFCmd*.  Pointer elements (FFCmd*, AVFrame*, AVPacket*) are
  modelled as `Option Nat`, whose value-initialized default Element{} is the
  null pointer `none`.
-/

/-- A pointer-typed FIFO element (FFCmd*, AVFrame* or AVPacket*). -/
abbrev PtrElem := Option Nat

/-- ff_cmd_fifo_read(fifo, cmd): FFCmd* c = nullptr; fifo->read(c);
*cmd = c; return FF_CMD_FIFO_OK.  (The null-argument guard is outside this
model: the fifo and out pointer are given.)  Result: (return code, value
stored through *cmd, new state). -/
def ff_cmd_fifo_read (f : sproqet_generic_waitable_fifo PtrElem) :
    Int × PtrElem × sproqet_generic_waitable_fifo PtrElem :=
  let r := f.read
  (FF_CMD_FIFO_OK, r.2.1, r.2.2)

/-
  Operation traces over a waitable FIFO, used for the temporal claims: each
  public mutating entry point is one operation, an operation that would
  block leaves the state unchanged and produces no return value.
-/

/-- One public call on a waitable FIFO. -/
inductive FOp (E : Type) where
  | write (x : E)
  | preempt (x : E)
  | read
  | waitForWriteSpace
  | tryWaitForWriteData
  | waitForReadData
  | tryWaitForReadData
  | waitForReadDataTimed (msecs : Int)
  | waitForWriteSpaceTimed (msecs : Int)
  | setFlowEnabled (enabled : Bool)
deriving DecidableEq

/-- Perform one call: next state plus its Int return value (none for the
void setFlowEnabled and for a wait that blocks). -/
def fstep [Inhabited E] (f : sproqet_generic_waitable_fifo E) :
    FOp E → sproqet_generic_waitable_fifo E × Option Int
  | .write x => let p := f.write x; (p.2, some p.1)
  | .preempt x => let p := f.preempt x; (p.2, some p.1)
  | .read => let r := f.read; (r.2.2, some r.1)
  | .waitForWriteSpace =>
    match f.waitForWriteSpace with
    | none => (f, none)
    | some (v, f2) => (f2, some v)
  | .tryWaitForWriteData => let p := f.tryWaitForWriteData; (p.2, some p.1)
  | .waitForReadData =>
    match f.waitForReadData with
    | none => (f, none)
    | some (v, f2) => (f2, some v)
  | .tryWaitForReadData => let p := f.tryWaitForReadData; (p.2, some p.1)
  | .waitForReadDataTimed ms =>
    match f.waitForReadDataTimed ms with
    | none => (f, none)
    | some (v, f2) => (f2, some v)
  | .waitForWriteSpaceTimed ms =>
    match f.waitForWriteSpaceTimed ms with
    | none => (f, none)
    | some (v, f2) => (f2, some v)
  | .setFlowEnabled b => (f.setFlowEnabled b, none)

/-- Run a list of calls. -/
def frun [Inhabited E] (f : sproqet_generic_waitable_fifo E) :
    List (FOp E) → sproqet_generic_waitable_fifo E
  | [] => f
  | op :: rest => frun (fstep f op).1 rest

/-- Whether an operation is a read call. -/
def isReadOp {E : Type} : FOp E → Bool
  | .read => true
  | _ => false

/-- Count of writes in a run whose push succeeded (they returned SPR_OK). -/
def succWrites [Inhabited E] (f : sproqet_generic_waitable_fifo E) :
    List (FOp E) → Nat
  | [] => 0
  | op :: rest =>
    (match op with
     | .write x => if (f.write x).1 = SPR_OK then 1 else 0
     | _ => 0) + succWrites (fstep f op).1 rest

/-- Count of preempts in a run that returned SPR_OK. -/
def succPreempts [Inhabited E] (f : sproqet_generic_waitable_fifo E) :
    List (FOp E) → Nat
  | [] => 0
  | op :: rest =>
    (match op with
     | .preempt x => if (f.preempt x).1 = SPR_OK then 1 else 0
     | _ => 0) + succPreempts (fstep f op).1 rest

/-- Count of reads in a run whose underlying pop retrieved an element. -/
def succReads [Inhabited E] (f : sproqet_generic_waitable_fifo E) :
    List (FOp E) → Nat
  | [] => 0
  | op :: rest =>
    (match op with
     | .read => if f.elements.pop.ok then 1 else 0
     | _ => 0) + succReads (fstep f op).1 rest

/-
  Operation traces over a single command cell (the ff_cmd_* helper calls
  that can touch its payload), threading the adapter-call ledger.
-/

/-- One payload-touching helper call on a command. -/
inductive COp where
  | init (t : Nat)
  | setData (data : Option Nat) (dataRef : Option Nat)
  | clearData
deriving DecidableEq

/-- Perform one helper call. -/
def cstep (env : CmdEnv) (c : FFCmd) : COp → CmdEnv × FFCmd
  | .init t => ff_cmd_init env c t
  | .setData d a => ff_cmd_set_data env c d a
  | .clearData => ff_cmd_clear_data env c

/-- Run a list of helper calls. -/
def crun (env : CmdEnv) (c : FFCmd) : List COp → CmdEnv × FFCmd
  | [] => (env, c)
  | op :: rest =>
    let p := cstep env c op
    crun p.1 p.2 rest

/-
  Abstraction of the ring to a list of its stored elements, oldest first.
  These are proof-side notions, not part of the embedded code.
-/

namespace circular_fifo

variable {E : Type}

/-- Well-formedness maintained by the source: both indices stay inside the
allocated array. -/
def WF (r : circular_fifo E) : Prop :=
  r.head < r.capacity ∧ r.tail < r.capacity

instance (r : circular_fifo E) : Decidable r.WF := by
  unfold WF
  infer_instance

/-- Number of stored elements determined by the indices. -/
def size (r : circular_fifo E) : Nat :=
  if r.head ≤ r.tail then r.tail - r.head else r.tail + r.capacity - r.head

/-- The stored elements, oldest (next to pop) first. -/
def toList (r : circular_fifo E) : List E :=
  (List.range r.size).map (fun i => r.arr ((r.head + i) % r.capacity))

/-- Pop repeatedly (up to `fuel` times) while the ring is non-empty,
collecting the popped elements in order. -/
def drain [Inhabited E] : circular_fifo E → Nat → List E
  | _, 0 => []
  | r, fuel + 1 =>
    let p := r.pop
    if p.ok then p.item.getD default :: drain p.state fuel else []

/-- Push a whole list of elements in order (keeping each resulting state,
successful or not). -/
def pushAll (r : circular_fifo E) (es : List E) : circular_fifo E :=
  es.foldl (fun s e => (s.push e).state) r

end circular_fifo

/-
  Concrete states used by the witness and counterexample theorems below.
-/

/-- A blocking ring of user capacity 8 with watermarks high = 2, low = 1 and
both handlers installed. -/
def rC1 : circular_fifo Nat :=
  (circular_fifo.create 8 .blocking).setWaterMarkHandler 2 true 1 true

/-- A blocking ring of user capacity 4, watermarks high = 2 / low = 1 with
handlers installed, holding one element. -/
def rC1w : circular_fifo Nat :=
  (((circular_fifo.create 4 .blocking).setWaterMarkHandler 2 true 1 true).push 5).state

/-- A command FIFO (capacity 2, read semaphore, blocking) in its constructed
state: flow disabled, empty. -/
def fW2 : sproqet_generic_waitable_fifo Nat :=
  sproqet_generic_waitable_fifo.create 2 true .blocking

/-- fW2 with flow enabled and one element written (read semaphore = 1),
then flow disabled again. -/
def fC2c : sproqet_generic_waitable_fifo Nat :=
  ((((fW2.setFlowEnabled true).write 42).2).setFlowEnabled false)

/-- A FIFO constructed without a read semaphore. -/
def fNoReadSem : sproqet_generic_waitable_fifo Nat :=
  sproqet_generic_waitable_fifo.create 2 false .blocking

/-- An empty pointer-element FIFO (capacity 2, read semaphore, blocking). -/
def fC10w : sproqet_generic_waitable_fifo PtrElem :=
  sproqet_generic_waitable_fifo.create 2 true .blocking

/-- A pool created with initial_size = 1, max_size = 1 (free list = [0]). -/
def pW1 : FFCmdPool := ff_cmd_pool_create 1 1

/-- pW1 after one acquire: free list empty, at its ceiling. -/
def pW1x : FFCmdPool := (ff_cmd_pool_acquire pW1).2

/-- An unlimited pool with nothing pre-allocated. -/
def pW0 : FFCmdPool := ff_cmd_pool_create 0 0

/-- A clean acquired command cell (as handed out by ff_cmd_pool_acquire). -/
def cClean : FFCmd := acquireInit callocCmd

/-- An empty blocking ring of user capacity 8 over Nat elements. -/
def rC3w : circular_fifo Nat := circular_fifo.create 8 .blocking

/-- A command holds payload q (with an adapter) when its data field is q and
its adapter field is non-null. -/
def holdsPayload (c : FFCmd) (q : Nat) : Prop :=
  c.data = some q ∧ c.dataRef ≠ none

instance (c : FFCmd) (q : Nat) : Decidable (holdsPayload c q) := by
  unfold holdsPayload
  infer_instance

/-- The adapter ledger is balanced against a command: for each payload
pointer, AddRef calls exceed Release calls by one exactly while the command
holds that payload with an adapter. -/
def balanced (env : CmdEnv) (c : FFCmd) : Prop :=
  ∀ q, env.addRefCalls q = env.releaseCalls q + (if holdsPayload c q then 1 else 0)

/-- Consistency of a waitable FIFO's ring: indices in range and the separate
atomic count agreeing with the index distance. -/
def WFC {E : Type} (f : sproqet_generic_waitable_fifo E) : Prop :=
  f.elements.WF ∧ f.elements.count = (f.elements.size : Int)

/-
  ---------------------------------------------------------------------------
  Theorems.
  ---------------------------------------------------------------------------
-/

/-- C1 (counterexample): on the blocking ring rC1 with high watermark 2 and
its handler installed, the third push from empty is successful and leaves
the stored count at high + 1 = 3, yet the high-watermark handler is NOT
invoked (it is invoked one push later, when the post-push count is
high + 2), contradicting the claim that the handler fires exactly when the
post-push stored count equals high + 1. -/
theorem C1_counterexample :
    (rC1.push 10).ok = true ∧
    ((rC1.push 10).state.push 11).ok = true ∧
    (((rC1.push 10).state.push 11).state.push 12).ok = true ∧
    (((rC1.push 10).state.push 11).state.push 12).state.count = rC1.highWaterMark + 1 ∧
    (((rC1.push 10).state.push 11).state.push 12).firedHigh = false ∧
    ((((rC1.push 10).state.push 11).state.push 12).state.push 13).firedHigh = true ∧
    ((((rC1.push 10).state.push 11).state.push 12).state.push 13).state.count
      = rC1.highWaterMark + 2 := by
  decide

/-- C1 (amended): with both handlers installed, a successful push invokes
the high-watermark handler exactly when the pre-push stored count equals
high + 1, i.e. when the post-push count equals high + 2 (in both modes);
a successful pop invokes the low-watermark handler exactly when the
post-pop count equals low - 2 in SPSC_LOCKLESS mode and exactly when the
post-pop count equals low - 1 in BLOCKING mode.  Each fires exactly once
per such event. -/
theorem C1_watermark (E : Type) (r : circular_fifo E) (x : E)
    (hHigh : r.hasHighHandler = true) (hLow : r.hasLowHandler = true) :
    ((r.push x).ok = true →
      ((r.push x).firedHigh = true ↔ (r.push x).state.count = r.highWaterMark + 2)) ∧
    (r.pop.ok = true →
      (r.pop.firedLow = true ↔
        (match r.mode with
         | .singleProducerLockless => r.pop.state.count = r.lowWaterMark - 2
         | .blocking => r.pop.state.count = r.lowWaterMark - 1))) := by
  constructor
  · intro hok
    cases hm : r.mode <;>
      simp only [circular_fifo.push, hm] at hok ⊢ <;>
      split at hok <;>
      simp_all <;>
      omega
  · intro hok
    cases hm : r.mode <;>
      simp only [circular_fifo.pop, hm] at hok ⊢ <;>
      split at hok <;>
      simp_all <;>
      omega

/-- C1 (witness): the amended watermark characterisation applied to the
concrete one-element blocking ring rC1w and the pushed value 6. -/
theorem C1_watermark_witness :
    ((rC1w.push 6).firedHigh = true ↔ (rC1w.push 6).state.count = rC1w.highWaterMark + 2) ∧
    (rC1w.pop.firedLow = true ↔
      (match rC1w.mode with
       | .singleProducerLockless => rC1w.pop.state.count = rC1w.lowWaterMark - 2
       | .blocking => rC1w.pop.state.count = rC1w.lowWaterMark - 1)) :=
  ⟨(C1_watermark Nat rC1w 6 (by decide) (by decide)).1 (by decide),
   (C1_watermark Nat rC1w 6 (by decide) (by decide)).2 (by decide)⟩

/-- C2 (counterexample): fC2c is reached by enabling flow, writing one
element and then calling set_flow_enabled(false); flow is disabled, yet the
subsequent wait_for_read_data call returns 0 (the plain semaphore wait
result), not FLOW_DISABLED, because waitForReadData never consults the flow
flag when a read semaphore exists. -/
theorem C2_counterexample :
    fC2c.flowEnabled = false ∧
    (fC2c.waitForReadData).map Prod.fst = some 0 ∧
    (0 : Int) ≠ SPR_FLOWDISABLED := by
  decide

/-- C5 (counterexample): on the freshly constructed FIFO fW2 the ring is
empty, so the read call pops no element, yet read still latches
has_been_read to true — contradicting the claim that a read call that pops
no element leaves it false. -/
theorem C5_counterexample :
    fW2.hasBeenRead = false ∧
    fW2.elements.pop.ok = false ∧
    (fW2.read).2.2.hasBeenRead = true := by
  decide

/-- C6 (counterexample): on a FIFO constructed without a read semaphore,
try_wait_for_read_data returns 0 and wait_for_read_data_timed returns 0 —
not FLOW_DISABLED as the claim states (only wait_for_read_data returns
FLOW_DISABLED). -/
theorem C6_counterexample :
    fNoReadSem.readSem = none ∧
    (fNoReadSem.tryWaitForReadData).1 = 0 ∧
    (fNoReadSem.waitForReadDataTimed 5).map Prod.fst = some 0 ∧
    (0 : Int) ≠ SPR_FLOWDISABLED := by
  decide

/-- C6 (amended): on a FIFO constructed without a read semaphore,
wait_for_read_data returns FLOW_DISABLED, while try_wait_for_read_data and
wait_for_read_data_timed return 0; none of them changes the state. -/
theorem C6_no_read_sem (E : Type) [Inhabited E]
    (f : sproqet_generic_waitable_fifo E) (h : f.readSem = none) (msecs : Int) :
    f.waitForReadData = some (SPR_FLOWDISABLED, f) ∧
    f.tryWaitForReadData = (0, f) ∧
    f.waitForReadDataTimed msecs = some (0, f) := by
  simp [sproqet_generic_waitable_fifo.waitForReadData,
    sproqet_generic_waitable_fifo.tryWaitForReadData,
    sproqet_generic_waitable_fifo.waitForReadDataTimed, h]

/-- C6 (witness): the amended statement applied to the concrete FIFO
fNoReadSem and a 5 ms timeout. -/
theorem C6_no_read_sem_witness :
    fNoReadSem.waitForReadData = some (SPR_FLOWDISABLED, fNoReadSem) ∧
    fNoReadSem.tryWaitForReadData = (0, fNoReadSem) ∧
    fNoReadSem.waitForReadDataTimed 5 = some (0, fNoReadSem) :=
  C6_no_read_sem Nat fNoReadSem (by decide) 5

/-- C10: reading an empty FIFO of pointer elements still returns 1, stores
the default (null) pointer into the out-parameter, posts the write
semaphore, latches has_been_read, leaves the ring untouched, and the C
wrapper ff_cmd_fifo_read reports FF_CMD_FIFO_OK with *cmd == null. -/
theorem C10_read_empty (f : sproqet_generic_waitable_fifo PtrElem)
    (hempty : f.elements.head = f.elements.tail) :
    (f.read).1 = 1 ∧
    (f.read).2.1 = none ∧
    (f.read).2.2.writeSem = f.writeSem + 1 ∧
    (f.read).2.2.hasBeenRead = true ∧
    (f.read).2.2.elements = f.elements ∧
    ff_cmd_fifo_read f = (FF_CMD_FIFO_OK, none, (f.read).2.2) := by
  cases hm : f.elements.mode <;>
    simp [ff_cmd_fifo_read, sproqet_generic_waitable_fifo.read,
      sproqet_generic_waitable_fifo.popPacket,
      sproqet_generic_waitable_fifo.signalWrite, circular_fifo.pop,
      semPost, hm, hempty, FF_CMD_FIFO_OK,
      show (default : PtrElem) = none from rfl]

/-
  Preservation facts for the waitable-FIFO operations, used by the trace
  theorems.
-/

namespace sproqet_generic_waitable_fifo

variable {E : Type}

@[simp]
theorem signalRead_flowEnabled (f : sproqet_generic_waitable_fifo E) :
    (signalRead f).flowEnabled = f.flowEnabled := by
  cases h : f.readSem <;> simp [signalRead, h]

@[simp]
theorem signalRead_hasBeenRead (f : sproqet_generic_waitable_fifo E) :
    (signalRead f).hasBeenRead = f.hasBeenRead := by
  cases h : f.readSem <;> simp [signalRead, h]

@[simp]
theorem signalRead_elements (f : sproqet_generic_waitable_fifo E) :
    (signalRead f).elements = f.elements := by
  cases h : f.readSem <;> simp [signalRead, h]

@[simp]
theorem signalWrite_flowEnabled (f : sproqet_generic_waitable_fifo E) :
    (signalWrite f).flowEnabled = f.flowEnabled := rfl

@[simp]
theorem signalWrite_hasBeenRead (f : sproqet_generic_waitable_fifo E) :
    (signalWrite f).hasBeenRead = f.hasBeenRead := rfl

@[simp]
theorem signalWrite_elements (f : sproqet_generic_waitable_fifo E) :
    (signalWrite f).elements = f.elements := rfl

@[simp]
theorem setFlowEnabled_hasBeenRead (f : sproqet_generic_waitable_fifo E) (b : Bool) :
    (f.setFlowEnabled b).hasBeenRead = f.hasBeenRead := by
  cases hf : f.flowEnabled <;> cases b <;>
    by_cases h1 : f.elements.count = (f.elements.capacity : Int) - 1 <;>
    by_cases h2 : f.elements.count = 0 <;>
    cases h3 : f.readSem <;>
    simp_all [setFlowEnabled, circular_fifo.storedCount]

@[simp]
theorem setFlowEnabled_elements (f : sproqet_generic_waitable_fifo E) (b : Bool) :
    (f.setFlowEnabled b).elements = f.elements := by
  cases hf : f.flowEnabled <;> cases b <;>
    by_cases h1 : f.elements.count = (f.elements.capacity : Int) - 1 <;>
    by_cases h2 : f.elements.count = 0 <;>
    cases h3 : f.readSem <;>
    simp_all [setFlowEnabled, circular_fifo.storedCount]

@[simp]
theorem setFlowEnabled_false_flow (f : sproqet_generic_waitable_fifo E) :
    (f.setFlowEnabled false).flowEnabled = false := by
  cases hf : f.flowEnabled <;>
    by_cases h1 : f.elements.count = (f.elements.capacity : Int) - 1 <;>
    by_cases h2 : f.elements.count = 0 <;>
    cases h3 : f.readSem <;>
    simp_all [setFlowEnabled, circular_fifo.storedCount]

end sproqet_generic_waitable_fifo

/-- One step of a trace cannot turn the flow flag on unless the operation is
setFlowEnabled(true). -/
theorem fstep_flow_false {E : Type} [Inhabited E]
    (f : sproqet_generic_waitable_fifo E) (op : FOp E)
    (hf : f.flowEnabled = false) (hop : op ≠ FOp.setFlowEnabled true) :
    (fstep f op).1.flowEnabled = false := by
  cases op with
  | write x =>
    simp [fstep, sproqet_generic_waitable_fifo.write, hf]
  | preempt x =>
    simp [fstep, sproqet_generic_waitable_fifo.preempt, hf]
  | read =>
    simp [fstep, sproqet_generic_waitable_fifo.read,
      sproqet_generic_waitable_fifo.popPacket, hf]
  | waitForWriteSpace =>
    simp [fstep, sproqet_generic_waitable_fifo.waitForWriteSpace, hf]
  | tryWaitForWriteData =>
    simp [fstep, sproqet_generic_waitable_fifo.tryWaitForWriteData, hf]
  | waitForReadData =>
    cases h : f.readSem with
    | none => simp [fstep, sproqet_generic_waitable_fifo.waitForReadData, h, hf]
    | some c =>
      by_cases hc : c = 0 <;>
        simp [fstep, sproqet_generic_waitable_fifo.waitForReadData, semWait, h, hc, hf]
  | tryWaitForReadData =>
    cases h : f.readSem <;>
      simp [fstep, sproqet_generic_waitable_fifo.tryWaitForReadData, semTryWait, h, hf]
  | waitForReadDataTimed ms =>
    cases h : f.readSem with
    | none => simp [fstep, sproqet_generic_waitable_fifo.waitForReadDataTimed, h, hf]
    | some c =>
      by_cases hm : ms < 1 <;> by_cases hc : c = 0 <;>
        simp [fstep, sproqet_generic_waitable_fifo.waitForReadDataTimed, semWait, h, hm, hc, hf]
  | waitForWriteSpaceTimed ms =>
    by_cases hm : ms < 1 <;>
      simp [fstep, sproqet_generic_waitable_fifo.waitForWriteSpaceTimed,
        sproqet_generic_waitable_fifo.waitForWriteSpace, hf, hm]
  | setFlowEnabled b =>
    cases b with
    | true => exact absurd rfl hop
    | false => simp [fstep]

/-- Along a trace with no setFlowEnabled(true), a disabled flow flag stays
disabled. -/
theorem frun_flow_false {E : Type} [Inhabited E]
    (f : sproqet_generic_waitable_fifo E) (ops : List (FOp E))
    (hf : f.flowEnabled = false)
    (hops : ∀ op ∈ ops, op ≠ FOp.setFlowEnabled true) :
    (frun f ops).flowEnabled = false := by
  induction ops generalizing f with
  | nil => simpa [frun] using hf
  | cons op rest ih =>
    have h1 : (fstep f op).1.flowEnabled = false :=
      fstep_flow_false f op hf (hops op (by simp))
    exact ih (fstep f op).1 h1 (fun o ho => hops o (by simp [ho]))

/-- C2 (amended): after the flow flag is off, it stays off along any trace
that does not contain set_flow_enabled(true); every write, preempt and
wait_for_write_space call issued on any state of such a trace returns
FLOW_DISABLED; wait_for_read_data returns FLOW_DISABLED exactly on the
FIFOs that carry no read semaphore — when a read semaphore exists that call
performs a plain semaphore wait without consulting the flow flag. -/
theorem C2_flow_disabled (E : Type) [Inhabited E]
    (f : sproqet_generic_waitable_fifo E) (ops : List (FOp E)) (x : E)
    (hf : f.flowEnabled = false)
    (hops : ∀ op ∈ ops, op ≠ FOp.setFlowEnabled true) :
    (frun f ops).flowEnabled = false ∧
    ((frun f ops).write x).1 = SPR_FLOWDISABLED ∧
    ((frun f ops).preempt x).1 = SPR_FLOWDISABLED ∧
    (frun f ops).waitForWriteSpace = some (SPR_FLOWDISABLED, frun f ops) ∧
    ((frun f ops).readSem = none →
      (frun f ops).waitForReadData = some (SPR_FLOWDISABLED, frun f ops)) := by
  have hg := frun_flow_false f ops hf hops
  refine ⟨hg, ?_, ?_, ?_, ?_⟩
  · simp [sproqet_generic_waitable_fifo.write, hg]
  · simp [sproqet_generic_waitable_fifo.preempt, hg]
  · simp [sproqet_generic_waitable_fifo.waitForWriteSpace, hg]
  · intro h
    simp [sproqet_generic_waitable_fifo.waitForReadData, h]

/-- C2 (witness): the amended statement on the concrete disabled FIFO fW2
after a write attempt and a read. -/
theorem C2_flow_disabled_witness :
    (frun fW2 [FOp.write 1, FOp.read]).flowEnabled = false ∧
    ((frun fW2 [FOp.write 1, FOp.read]).write 5).1 = SPR_FLOWDISABLED ∧
    ((frun fW2 [FOp.write 1, FOp.read]).preempt 5).1 = SPR_FLOWDISABLED ∧
    (frun fW2 [FOp.write 1, FOp.read]).waitForWriteSpace
      = some (SPR_FLOWDISABLED, frun fW2 [FOp.write 1, FOp.read]) ∧
    ((frun fW2 [FOp.write 1, FOp.read]).readSem = none →
      (frun fW2 [FOp.write 1, FOp.read]).waitForReadData
        = some (SPR_FLOWDISABLED, frun fW2 [FOp.write 1, FOp.read])) :=
  C2_flow_disabled Nat fW2 [FOp.write 1, FOp.read] 5 (by decide) (by decide)

/-- One step of a trace latches hasBeenRead exactly on read calls. -/
theorem fstep_hasBeenRead {E : Type} [Inhabited E]
    (f : sproqet_generic_waitable_fifo E) (op : FOp E) :
    (fstep f op).1.hasBeenRead = (f.hasBeenRead || isReadOp op) := by
  cases op with
  | write x =>
    by_cases hf : f.flowEnabled <;>
      simp [fstep, sproqet_generic_waitable_fifo.write,
        sproqet_generic_waitable_fifo.pushPacket, isReadOp, hf] <;>
      split <;> simp
  | preempt x =>
    by_cases hf : f.flowEnabled <;>
      simp [fstep, sproqet_generic_waitable_fifo.preempt, isReadOp, hf]
    split <;> simp
  | read =>
    simp [fstep, sproqet_generic_waitable_fifo.read,
      sproqet_generic_waitable_fifo.popPacket, isReadOp]
  | waitForWriteSpace =>
    by_cases hf : f.flowEnabled <;> by_cases hw : f.writeSem = 0 <;>
      simp [fstep, sproqet_generic_waitable_fifo.waitForWriteSpace, semWait,
        isReadOp, hf, hw]
  | tryWaitForWriteData =>
    by_cases hf : f.flowEnabled <;>
      simp [fstep, sproqet_generic_waitable_fifo.tryWaitForWriteData, semTryWait,
        isReadOp, hf]
  | waitForReadData =>
    cases h : f.readSem with
    | none => simp [fstep, sproqet_generic_waitable_fifo.waitForReadData, h, isReadOp]
    | some c =>
      by_cases hc : c = 0 <;>
        simp [fstep, sproqet_generic_waitable_fifo.waitForReadData, semWait, h, hc, isReadOp]
  | tryWaitForReadData =>
    cases h : f.readSem <;>
      simp [fstep, sproqet_generic_waitable_fifo.tryWaitForReadData, semTryWait, h, isReadOp]
  | waitForReadDataTimed ms =>
    cases h : f.readSem with
    | none => simp [fstep, sproqet_generic_waitable_fifo.waitForReadDataTimed, h, isReadOp]
    | some c =>
      by_cases hm : ms < 1 <;> by_cases hc : c = 0 <;>
        simp [fstep, sproqet_generic_waitable_fifo.waitForReadDataTimed, semWait,
          h, hm, hc, isReadOp]
  | waitForWriteSpaceTimed ms =>
    by_cases hm : ms < 1 <;> by_cases hf : f.flowEnabled <;> by_cases hw : f.writeSem = 0 <;>
      simp [fstep, sproqet_generic_waitable_fifo.waitForWriteSpaceTimed,
        sproqet_generic_waitable_fifo.waitForWriteSpace, semWait, isReadOp, hm, hf, hw]
  | setFlowEnabled b =>
    simp [fstep, isReadOp]

/-- C5 (amended): has_been_read is a latch on read CALLS: after any trace it
is true exactly when it was already true or the trace contains a read call,
successful or not; no operation ever clears it. -/
theorem C5_hasBeenRead (E : Type) [Inhabited E]
    (f : sproqet_generic_waitable_fifo E) (ops : List (FOp E)) :
    (frun f ops).hasBeenRead = (f.hasBeenRead || ops.any isReadOp) := by
  induction ops generalizing f with
  | nil => simp [frun]
  | cons op rest ih =>
    calc (frun f (op :: rest)).hasBeenRead
        = ((fstep f op).1.hasBeenRead || rest.any isReadOp) := ih (fstep f op).1
      _ = (f.hasBeenRead || (op :: rest).any isReadOp) := by
          simp [fstep_hasBeenRead, List.any_cons, Bool.or_assoc]

/-- C10 (witness): the empty-read behaviour on the concrete empty
pointer-element FIFO fC10w. -/
theorem C10_read_empty_witness :
    (fC10w.read).1 = 1 ∧
    (fC10w.read).2.1 = none ∧
    (fC10w.read).2.2.writeSem = fC10w.writeSem + 1 ∧
    (fC10w.read).2.2.hasBeenRead = true ∧
    (fC10w.read).2.2.elements = fC10w.elements ∧
    ff_cmd_fifo_read fC10w = (FF_CMD_FIFO_OK, none, (fC10w.read).2.2) :=
  C10_read_empty fC10w (by decide)

/-
  Pool cell access facts.
-/

theorem FFCmdPool.getCell_setCell_self (p : FFCmdPool) (id : Nat) (c : FFCmd)
    (h : id < p.cells.length) : (p.setCell id c).getCell id = c := by
  simp [FFCmdPool.getCell, FFCmdPool.setCell, List.getD_eq_getElem?_getD,
    List.getElem?_set_self h]

theorem FFCmdPool.getCell_of_cells (p : FFCmdPool) (l : List FFCmd) (c : FFCmd)
    (h : p.cells = l ++ [c]) : p.getCell l.length = c := by
  simp [FFCmdPool.getCell, h, List.getD_eq_getElem?_getD, List.getElem?_concat_length]

/-- C7: acquire hands out a cell with refcount 1, type NONE and every
payload and metadata field cleared; the cell comes from the free list when
that list is non-empty (decrementing free_count, total_count unchanged),
otherwise a fresh cell is allocated when max_size == 0 or
total_count < max_size (incrementing total_count), and otherwise acquire
returns null leaving the pool unchanged. -/
theorem C7_acquire (p : FFCmdPool) :
    (∀ id rest, p.freeList = id :: rest → id < p.cells.length →
      (ff_cmd_pool_acquire p).1 = some id ∧
      (ff_cmd_pool_acquire p).2.freeList = rest ∧
      (ff_cmd_pool_acquire p).2.freeCount = p.freeCount - 1 ∧
      (ff_cmd_pool_acquire p).2.totalCount = p.totalCount ∧
      (ff_cmd_pool_acquire p).2.getCell id = acquireInit (p.getCell id) ∧
      ((ff_cmd_pool_acquire p).2.getCell id).refcount = 1 ∧
      ((ff_cmd_pool_acquire p).2.getCell id).type = FF_CMD_NONE ∧
      ((ff_cmd_pool_acquire p).2.getCell id).data = none ∧
      ((ff_cmd_pool_acquire p).2.getCell id).dataRef = none ∧
      ((ff_cmd_pool_acquire p).2.getCell id).pts = 0 ∧
      ((ff_cmd_pool_acquire p).2.getCell id).dts = 0 ∧
      ((ff_cmd_pool_acquire p).2.getCell id).flags = 0 ∧
      ((ff_cmd_pool_acquire p).2.getCell id).streamIndex = 0 ∧
      ((ff_cmd_pool_acquire p).2.getCell id).userData = none) ∧
    (p.freeList = [] → (p.maxSize = 0 ∨ p.totalCount < p.maxSize) →
      (ff_cmd_pool_acquire p).1 = some p.cells.length ∧
      (ff_cmd_pool_acquire p).2.totalCount = p.totalCount + 1 ∧
      (ff_cmd_pool_acquire p).2.getCell p.cells.length = acquireInit callocCmd) ∧
    (p.freeList = [] → p.maxSize ≠ 0 → ¬ p.totalCount < p.maxSize →
      ff_cmd_pool_acquire p = (none, p)) := by
  refine ⟨?_, ?_, ?_⟩
  · intro id rest hfl hid
    have hcell :
        (ff_cmd_pool_acquire p).2.getCell id
          = acquireInit (FFCmdPool.getCell
              { p with freeList := rest, freeCount := p.freeCount - 1 } id) := by
      simp only [ff_cmd_pool_acquire, hfl]
      exact FFCmdPool.getCell_setCell_self _ id _ hid
    have hsame :
        FFCmdPool.getCell { p with freeList := rest, freeCount := p.freeCount - 1 } id
          = p.getCell id := rfl
    rw [hsame] at hcell
    refine ⟨?_, ?_, ?_, ?_, hcell, ?_, ?_, ?_, ?_, ?_, ?_, ?_, ?_, ?_⟩ <;>
      first
        | (simp [ff_cmd_pool_acquire, hfl, FFCmdPool.setCell]; done)
        | (rw [hcell]; simp [acquireInit])
  · intro hfl hcond
    refine ⟨?_, ?_, ?_⟩
    · simp [ff_cmd_pool_acquire, hfl, hcond]
    · simp [ff_cmd_pool_acquire, hfl, hcond]
    · have hres :
          (ff_cmd_pool_acquire p).2
            = { p with cells := p.cells ++ [acquireInit callocCmd],
                       totalCount := p.totalCount + 1 } := by
        simp [ff_cmd_pool_acquire, hfl, hcond]
      rw [hres]
      exact FFCmdPool.getCell_of_cells _ p.cells _ rfl
  · intro hfl hmax htot
    simp [ff_cmd_pool_acquire, hfl, hmax, htot]

/-- C7 (witness): the three acquire cases exercised on concrete pools — the
free-list case on pW1 (free list [0]), the allocation case on the unlimited
empty pool pW0, and the exhaustion case on the drained bounded pool pW1x. -/
theorem C7_acquire_witness :
    ((ff_cmd_pool_acquire pW1).1 = some 0 ∧
      (ff_cmd_pool_acquire pW1).2.freeList = [] ∧
      (ff_cmd_pool_acquire pW1).2.freeCount = pW1.freeCount - 1 ∧
      (ff_cmd_pool_acquire pW1).2.totalCount = pW1.totalCount ∧
      (ff_cmd_pool_acquire pW1).2.getCell 0 = acquireInit (pW1.getCell 0) ∧
      ((ff_cmd_pool_acquire pW1).2.getCell 0).refcount = 1 ∧
      ((ff_cmd_pool_acquire pW1).2.getCell 0).type = FF_CMD_NONE ∧
      ((ff_cmd_pool_acquire pW1).2.getCell 0).data = none ∧
      ((ff_cmd_pool_acquire pW1).2.getCell 0).dataRef = none ∧
      ((ff_cmd_pool_acquire pW1).2.getCell 0).pts = 0 ∧
      ((ff_cmd_pool_acquire pW1).2.getCell 0).dts = 0 ∧
      ((ff_cmd_pool_acquire pW1).2.getCell 0).flags = 0 ∧
      ((ff_cmd_pool_acquire pW1).2.getCell 0).streamIndex = 0 ∧
      ((ff_cmd_pool_acquire pW1).2.getCell 0).userData = none) ∧
    ((ff_cmd_pool_acquire pW0).1 = some pW0.cells.length ∧
      (ff_cmd_pool_acquire pW0).2.totalCount = pW0.totalCount + 1 ∧
      (ff_cmd_pool_acquire pW0).2.getCell pW0.cells.length = acquireInit callocCmd) ∧
    ff_cmd_pool_acquire pW1x = (none, pW1x) :=
  ⟨(C7_acquire pW1).1 0 [] (by decide) (by decide),
   (C7_acquire pW0).2.1 (by decide) (by decide),
   (C7_acquire pW1x).2.2 (by decide) (by decide) (by decide)⟩

/-- C8: a release that takes the refcount to 0 returns 0, first clears the
payload (one adapter Release on the attached payload, when present) and
then returns the cell to the owning pool's free list (free_count + 1, cell
reset to type NONE with no payload); and in the concrete scenario of a pool
with initial_size = 2, max_size = 2, where the first acquired cell c1 (cell
id 1) is add_ref'd twice and released three times, the third acquire
returned null, the final release yields free_count == 1 and the next
acquire returns that exact cell, cleared to type NONE with refcount 1. -/
theorem C8_release_to_pool :
    (∀ env p id, id < p.cells.length → (p.getCell id).refcount = 1 →
      (cmd_release env p id).1 = 0 ∧
      (cmd_release env p id).2.2.freeList = id :: p.freeList ∧
      (cmd_release env p id).2.2.freeCount = p.freeCount + 1 ∧
      ((cmd_release env p id).2.2.getCell id).type = FF_CMD_NONE ∧
      ((cmd_release env p id).2.2.getCell id).data = none ∧
      ((cmd_release env p id).2.2.getCell id).dataRef = none ∧
      (∀ q a, (p.getCell id).data = some q → (p.getCell id).dataRef = some a →
        (cmd_release env p id).2.1.releaseCalls q = env.releaseCalls q + 1)) ∧
    (let p0 := ff_cmd_pool_create 2 2
     let a1 := ff_cmd_pool_acquire p0
     let a2 := ff_cmd_pool_acquire a1.2
     let a3 := ff_cmd_pool_acquire a2.2
     let r1 := cmd_addref a2.2 1
     let r2 := cmd_addref r1.2 1
     let s1 := cmd_release CmdEnv.empty r2.2 1
     let s2 := cmd_release s1.2.1 s1.2.2 1
     let s3 := cmd_release s2.2.1 s2.2.2 1
     let a4 := ff_cmd_pool_acquire s3.2.2
     a1.1 = some 1 ∧ a2.1 = some 0 ∧ a3.1 = none ∧
     r1.1 = 2 ∧ r2.1 = 3 ∧ s1.1 = 2 ∧ s2.1 = 1 ∧ s3.1 = 0 ∧
     s3.2.2.freeCount = 1 ∧ a4.1 = some 1 ∧
     (a4.2.getCell 1).type = FF_CMD_NONE ∧ (a4.2.getCell 1).refcount = 1) := by
  constructor
  · intro env p id hid hrc
    have hlen : ∀ (pp : FFCmdPool) (x : FFCmd), (pp.setCell id x).cells.length = pp.cells.length := by
      intro pp x
      simp [FFCmdPool.setCell]
    have h1 : (p.setCell id { p.getCell id with refcount := 0 }).getCell id
        = { p.getCell id with refcount := 0 } :=
      FFCmdPool.getCell_setCell_self _ _ _ hid
    have hstep : cmd_release env p id
        = (0, (ff_cmd_clear_data env { p.getCell id with refcount := 0 }).1,
            ff_cmd_pool_return
              ((p.setCell id { p.getCell id with refcount := 0 }).setCell id
                (ff_cmd_clear_data env { p.getCell id with refcount := 0 }).2) id) := by
      simp only [cmd_release, hrc]
      norm_num
      rw [h1]
      exact ⟨rfl, rfl⟩
    set p3 := (p.setCell id { p.getCell id with refcount := 0 }).setCell id
      (ff_cmd_clear_data env { p.getCell id with refcount := 0 }).2 with hp3
    have hid3 : id < p3.cells.length := by
      rw [hp3, hlen, hlen]
      exact hid
    have h2 : (ff_cmd_pool_return p3 id).getCell id
        = { p3.getCell id with
            type := FF_CMD_NONE
            data := none
            dataRef := none
            pts := 0
            dts := 0
            flags := 0
            streamIndex := 0
            userData := none } := by
      simp only [ff_cmd_pool_return]
      exact FFCmdPool.getCell_setCell_self _ _ _ hid3
    have h3 : (ff_cmd_pool_return p3 id).freeList = id :: p3.freeList := by
      simp [ff_cmd_pool_return, FFCmdPool.setCell]
    have h4 : (ff_cmd_pool_return p3 id).freeCount = p3.freeCount + 1 := by
      simp [ff_cmd_pool_return, FFCmdPool.setCell]
    have hfl3 : p3.freeList = p.freeList := by
      rw [hp3]
      simp [FFCmdPool.setCell]
    have hfc3 : p3.freeCount = p.freeCount := by
      rw [hp3]
      simp [FFCmdPool.setCell]
    refine ⟨?_, ?_, ?_, ?_, ?_, ?_, ?_⟩
    · rw [hstep]
    · rw [hstep]
      simp only []
      rw [h3, hfl3]
    · rw [hstep]
      simp only []
      rw [h4, hfc3]
    · rw [hstep]
      simp only []
      rw [h2]
    · rw [hstep]
      simp only []
      rw [h2]
    · rw [hstep]
      simp only []
      rw [h2]
    · intro q a hq ha
      rw [hstep]
      simp [ff_cmd_clear_data, hq, ha, bump]
  · decide

/-- C8 (witness): the release-to-zero behaviour applied to the concrete
one-cell pool pW1 after acquiring its cell (refcount 1, payload 7 attached
with adapter 1 recorded in the cell). -/
theorem C8_release_to_pool_witness :
    (cmd_release CmdEnv.empty (ff_cmd_pool_acquire pW1).2 0).1 = 0 ∧
    (cmd_release CmdEnv.empty (ff_cmd_pool_acquire pW1).2 0).2.2.freeList
      = 0 :: (ff_cmd_pool_acquire pW1).2.freeList ∧
    (cmd_release CmdEnv.empty (ff_cmd_pool_acquire pW1).2 0).2.2.freeCount
      = (ff_cmd_pool_acquire pW1).2.freeCount + 1 ∧
    ((cmd_release CmdEnv.empty (ff_cmd_pool_acquire pW1).2 0).2.2.getCell 0).type
      = FF_CMD_NONE ∧
    ((cmd_release CmdEnv.empty (ff_cmd_pool_acquire pW1).2 0).2.2.getCell 0).data = none ∧
    ((cmd_release CmdEnv.empty (ff_cmd_pool_acquire pW1).2 0).2.2.getCell 0).dataRef = none ∧
    (∀ q a, ((ff_cmd_pool_acquire pW1).2.getCell 0).data = some q →
      ((ff_cmd_pool_acquire pW1).2.getCell 0).dataRef = some a →
      (cmd_release CmdEnv.empty (ff_cmd_pool_acquire pW1).2 0).2.1.releaseCalls q
        = CmdEnv.empty.releaseCalls q + 1) :=
  C8_release_to_pool.1 CmdEnv.empty (ff_cmd_pool_acquire pW1).2 0 (by decide) (by decide)

/-
  Adapter-call accounting for C9.
-/

theorem clear_data_addRefCalls (env : CmdEnv) (c : FFCmd) :
    (ff_cmd_clear_data env c).1.addRefCalls = env.addRefCalls := by
  cases hd : c.data <;> cases hr : c.dataRef <;> simp [ff_cmd_clear_data, hd, hr]

theorem clear_data_balanced (env : CmdEnv) (c : FFCmd) (h : balanced env c) :
    balanced (ff_cmd_clear_data env c).1 (ff_cmd_clear_data env c).2 := by
  intro q
  have hq := h q
  cases hd : c.data with
  | none =>
    simp [holdsPayload, hd] at hq
    simpa [ff_cmd_clear_data, hd, holdsPayload] using hq
  | some d =>
    cases hr : c.dataRef with
    | none =>
      simp [holdsPayload, hd, hr] at hq
      simpa [ff_cmd_clear_data, hd, hr, holdsPayload] using hq
    | some a =>
      by_cases hqd : q = d
      · subst hqd
        simp [holdsPayload, hd, hr] at hq
        simp [ff_cmd_clear_data, hd, hr, holdsPayload, bump, hq]
      · have hdq : ¬ d = q := fun h2 => hqd h2.symm
        simp [holdsPayload, hd, hr, hdq] at hq
        simp [ff_cmd_clear_data, hd, hr, holdsPayload, bump, hqd, hq]

theorem set_data_balanced (env : CmdEnv) (c : FFCmd) (d a : Option Nat)
    (h : balanced env c) :
    balanced (ff_cmd_set_data env c d a).1 (ff_cmd_set_data env c d a).2 := by
  have h1 := clear_data_balanced env c h
  intro q
  have hq := h1 q
  have hcd : (ff_cmd_clear_data env c).2.data = none := by
    simp [ff_cmd_clear_data]
  simp [holdsPayload, hcd] at hq
  cases hd : d with
  | none =>
    simpa [ff_cmd_set_data, hd, holdsPayload] using hq
  | some dp =>
    cases ha : a with
    | none =>
      simpa [ff_cmd_set_data, hd, ha, holdsPayload] using hq
    | some ap =>
      by_cases hqd : q = dp
      · subst hqd
        simp [ff_cmd_set_data, hd, ha, holdsPayload, bump, hq]
      · have hdq : ¬ dp = q := fun h2 => hqd h2.symm
        simp [ff_cmd_set_data, hd, ha, holdsPayload, bump, hqd, hdq, hq]

theorem init_balanced (env : CmdEnv) (c : FFCmd) (t : Nat) (h : balanced env c) :
    balanced (ff_cmd_init env c t).1 (ff_cmd_init env c t).2 := by
  have h1 := clear_data_balanced env c h
  intro q
  have hq := h1 q
  have hcd : (ff_cmd_clear_data env c).2.data = none := by
    simp [ff_cmd_clear_data]
  simp [holdsPayload, hcd] at hq
  simpa [ff_cmd_init, holdsPayload, ff_cmd_clear_data] using hq

theorem cstep_balanced (env : CmdEnv) (c : FFCmd) (op : COp) (h : balanced env c) :
    balanced (cstep env c op).1 (cstep env c op).2 := by
  cases op with
  | init t => exact init_balanced env c t h
  | setData d a => exact set_data_balanced env c d a h
  | clearData => exact clear_data_balanced env c h

theorem crun_balanced (env : CmdEnv) (c : FFCmd) (ops : List COp) (h : balanced env c) :
    balanced (crun env c ops).1 (crun env c ops).2 := by
  induction ops generalizing env c with
  | nil => simpa [crun] using h
  | cons op rest ih => exact ih _ _ (cstep_balanced env c op h)

theorem cstep_addRef_mono (env : CmdEnv) (c : FFCmd) (op : COp) (q : Nat) :
    env.addRefCalls q ≤ (cstep env c op).1.addRefCalls q := by
  cases op with
  | init t => simp [cstep, ff_cmd_init, clear_data_addRefCalls]
  | clearData => simp [cstep, clear_data_addRefCalls]
  | setData d a =>
    cases d <;> cases a <;>
      simp [cstep, ff_cmd_set_data, clear_data_addRefCalls, bump] <;>
      split <;> omega

theorem crun_addRef_mono (env : CmdEnv) (c : FFCmd) (ops : List COp) (q : Nat) :
    env.addRefCalls q ≤ (crun env c ops).1.addRefCalls q := by
  induction ops generalizing env c with
  | nil => simp [crun]
  | cons op rest ih => exact le_trans (cstep_addRef_mono env c op q) (ih _ _)

theorem crun_addRef_hit (env : CmdEnv) (c : FFCmd) (ops : List COp) (q a : Nat)
    (hmem : COp.setData (some q) (some a) ∈ ops) :
    env.addRefCalls q + 1 ≤ (crun env c ops).1.addRefCalls q := by
  induction ops generalizing env c with
  | nil => cases hmem
  | cons op rest ih =>
    rcases List.mem_cons.mp hmem with heq | hmem2
    · subst heq
      have h1 : (cstep env c (COp.setData (some q) (some a))).1.addRefCalls q
          = env.addRefCalls q + 1 := by
        simp [cstep, ff_cmd_set_data, clear_data_addRefCalls, bump]
      have h2 := crun_addRef_mono (cstep env c (COp.setData (some q) (some a))).1
        (cstep env c (COp.setData (some q) (some a))).2 rest q
      rw [h1] at h2
      simpa [crun] using h2
    · have h1 := cstep_addRef_mono env c op q
      have h2 := ih (cstep env c op).1 (cstep env c op).2 hmem2
      simp [crun]
      omega

/-- The env component of a release that hits zero is exactly
ff_cmd_clear_data applied to the cell (the refcount rewrite does not change
the payload fields, and ff_cmd_pool_return performs no adapter calls). -/
theorem cmd_release_env (env : CmdEnv) (p : FFCmdPool) (id : Nat)
    (hid : id < p.cells.length) (hrc : (p.getCell id).refcount = 1) :
    (cmd_release env p id).2.1 = (ff_cmd_clear_data env (p.getCell id)).1 := by
  have h1 : (p.setCell id { p.getCell id with refcount := 0 }).getCell id
      = { p.getCell id with refcount := 0 } :=
    FFCmdPool.getCell_setCell_self _ _ _ hid
  simp only [cmd_release, hrc]
  norm_num
  rw [h1]
  cases hd : (p.getCell id).data <;> cases hr : (p.getCell id).dataRef <;>
    simp [ff_cmd_clear_data, hd, hr]

/-- C9: for a command taken clean from the pool whose helper-call history
includes a set_data attaching payload q with a non-null adapter, the final
release (a cmd_release at refcount 1, whose adapter activity is exactly one
ff_cmd_clear_data — ff_cmd_pool_return touches no adapter) leaves the
ledger with equally many AddRef and Release calls on q, at least one of
each. -/
theorem C9_payload_refcount_symmetry (c0 : FFCmd) (ops : List COp) (q a : Nat)
    (p : FFCmdPool) (id : Nat)
    (hc0 : c0.data = none)
    (hmem : COp.setData (some q) (some a) ∈ ops)
    (hid : id < p.cells.length)
    (hcell : p.getCell id = { (crun CmdEnv.empty c0 ops).2 with refcount := 1 }) :
    (cmd_release (crun CmdEnv.empty c0 ops).1 p id).2.1.addRefCalls q
      = (cmd_release (crun CmdEnv.empty c0 ops).1 p id).2.1.releaseCalls q ∧
    1 ≤ (cmd_release (crun CmdEnv.empty c0 ops).1 p id).2.1.addRefCalls q := by
  have hrc : (p.getCell id).refcount = 1 := by
    rw [hcell]
  have henv := cmd_release_env (crun CmdEnv.empty c0 ops).1 p id hid hrc
  have hbal0 : balanced CmdEnv.empty c0 := by
    intro t
    simp [CmdEnv.empty, holdsPayload, hc0]
  have hbal := crun_balanced CmdEnv.empty c0 ops hbal0
  have hclear : (ff_cmd_clear_data (crun CmdEnv.empty c0 ops).1 (p.getCell id)).1
      = (ff_cmd_clear_data (crun CmdEnv.empty c0 ops).1 (crun CmdEnv.empty c0 ops).2).1 := by
    rw [hcell]
    cases hd : (crun CmdEnv.empty c0 ops).2.data <;>
      cases hr : (crun CmdEnv.empty c0 ops).2.dataRef <;>
      simp [ff_cmd_clear_data, hd, hr]
  have hbal2 := clear_data_balanced (crun CmdEnv.empty c0 ops).1
    (crun CmdEnv.empty c0 ops).2 hbal
  have hfin := hbal2 q
  have hfd : (ff_cmd_clear_data (crun CmdEnv.empty c0 ops).1
      (crun CmdEnv.empty c0 ops).2).2.data = none := by
    simp [ff_cmd_clear_data]
  simp [holdsPayload, hfd] at hfin
  have hone : 1 ≤ (crun CmdEnv.empty c0 ops).1.addRefCalls q := by
    have := crun_addRef_hit CmdEnv.empty c0 ops q a hmem
    simpa [CmdEnv.empty] using this
  have hkeep : (ff_cmd_clear_data (crun CmdEnv.empty c0 ops).1
      (crun CmdEnv.empty c0 ops).2).1.addRefCalls
      = (crun CmdEnv.empty c0 ops).1.addRefCalls :=
    clear_data_addRefCalls _ _
  constructor
  · rw [henv, hclear]
    exact hfin
  · rw [henv, hclear, hkeep]
    exact hone

/-- C9 (witness): the symmetry applied to the clean cell cClean with a
single set_data of payload 7 / adapter 1, released from a pool holding that
cell at index 0. -/
theorem C9_payload_refcount_symmetry_witness :
    (cmd_release (crun CmdEnv.empty cClean [COp.setData (some 7) (some 1)]).1
      { cells := [{ (crun CmdEnv.empty cClean [COp.setData (some 7) (some 1)]).2 with refcount := 1 }],
        freeList := [], totalCount := 1, freeCount := 0, maxSize := 1 } 0).2.1.addRefCalls 7
      = (cmd_release (crun CmdEnv.empty cClean [COp.setData (some 7) (some 1)]).1
        { cells := [{ (crun CmdEnv.empty cClean [COp.setData (some 7) (some 1)]).2 with refcount := 1 }],
          freeList := [], totalCount := 1, freeCount := 0, maxSize := 1 } 0).2.1.releaseCalls 7 ∧
    1 ≤ (cmd_release (crun CmdEnv.empty cClean [COp.setData (some 7) (some 1)]).1
      { cells := [{ (crun CmdEnv.empty cClean [COp.setData (some 7) (some 1)]).2 with refcount := 1 }],
        freeList := [], totalCount := 1, freeCount := 0, maxSize := 1 } 0).2.1.addRefCalls 7 :=
  C9_payload_refcount_symmetry cClean [COp.setData (some 7) (some 1)] 7 1
    { cells := [{ (crun CmdEnv.empty cClean [COp.setData (some 7) (some 1)]).2 with refcount := 1 }],
      freeList := [], totalCount := 1, freeCount := 0, maxSize := 1 } 0
    (by decide) (by decide) (by decide) (by rfl)

/-
  Ring index arithmetic and list abstraction lemmas (for C3 and C4).
-/

namespace circular_fifo

variable {E : Type}

theorem size_le_of_WF (r : circular_fifo E) (h : r.WF) : r.size ≤ r.capacity - 1 := by
  rcases h with ⟨h1, h2⟩
  unfold size
  split <;> omega

theorem size_zero_iff (r : circular_fifo E) (h : r.WF) : r.size = 0 ↔ r.head = r.tail := by
  rcases h with ⟨h1, h2⟩
  unfold size
  split <;> omega

theorem increment_eq (r : circular_fifo E) (idx : Nat) (h : idx < r.capacity) :
    r.increment idx = if idx + 1 = r.capacity then 0 else idx + 1 := by
  unfold increment
  split
  · rename_i he
    rw [he, Nat.mod_self]
  · rename_i he
    exact Nat.mod_eq_of_lt (by omega)

theorem increment_lt (r : circular_fifo E) (idx : Nat) (h : idx < r.capacity) :
    r.increment idx < r.capacity := by
  rw [increment_eq r idx h]
  split <;> omega

theorem decrement_lt (r : circular_fifo E) (idx : Nat) (h : idx < r.capacity) :
    r.decrement idx < r.capacity := by
  unfold decrement
  split <;> omega

theorem mod_shift_inj (cap h i j : Nat) (hi : i < cap) (hj : j < cap)
    (he : (h + i) % cap = (h + j) % cap) : i = j := by
  have h2 : i ≡ j [MOD cap] := Nat.ModEq.add_left_cancel' h he
  have h3 : i % cap = j % cap := h2
  rwa [Nat.mod_eq_of_lt hi, Nat.mod_eq_of_lt hj] at h3

theorem head_add_size_mod (r : circular_fifo E) (h : r.WF) :
    (r.head + r.size) % r.capacity = r.tail := by
  rcases h with ⟨h1, h2⟩
  unfold size
  split
  · have he : r.head + (r.tail - r.head) = r.tail := by omega
    rw [he, Nat.mod_eq_of_lt h2]
  · have he : r.head + (r.tail + r.capacity - r.head) = r.tail + r.capacity := by omega
    rw [he, Nat.add_mod_right, Nat.mod_eq_of_lt h2]

theorem push_ok_iff (r : circular_fifo E) (x : E) :
    (r.push x).ok = true ↔ r.increment r.tail ≠ r.head := by
  cases hm : r.mode <;> simp only [push, hm] <;> split <;> simp_all

theorem push_state_of_ok (r : circular_fifo E) (x : E)
    (h : r.increment r.tail ≠ r.head) :
    (r.push x).state = { r with
      arr := fun i => if i = r.tail then x else r.arr i
      tail := r.increment r.tail
      count := r.count + 1 } := by
  cases hm : r.mode <;> simp [push, hm, h]

theorem push_state_of_fail (r : circular_fifo E) (x : E)
    (h : ¬ r.increment r.tail ≠ r.head) :
    (r.push x).state = r := by
  cases hm : r.mode <;> simp [push, hm, h]

theorem pop_ok_iff (r : circular_fifo E) :
    ((r.pop).ok = true) ↔ r.head ≠ r.tail := by
  cases hm : r.mode <;> simp only [pop, hm] <;> split <;> simp_all

theorem pop_state_of_ok (r : circular_fifo E) (h : r.head ≠ r.tail) :
    (r.pop).state = { r with head := r.increment r.head, count := r.count - 1 } ∧
    (r.pop).item = some (r.arr r.head) := by
  cases hm : r.mode <;> simp [pop, hm, h]

theorem pop_state_of_fail (r : circular_fifo E) (h : r.head = r.tail) :
    (r.pop).state = r ∧ (r.pop).item = none := by
  cases hm : r.mode <;> simp [pop, hm, h]

theorem preempt_ok_iff (r : circular_fifo E) (x : E) :
    ((r.preempt x).ok = true) ↔ r.decrement r.head ≠ r.tail := by
  simp only [preempt]
  split <;> simp_all

theorem preempt_state_of_ok (r : circular_fifo E) (x : E)
    (h : r.decrement r.head ≠ r.tail) :
    (r.preempt x).state = { r with
      arr := fun i => if i = r.decrement r.head then x else r.arr i
      head := r.decrement r.head
      count := r.count + 1 } := by
  simp [preempt, h]

theorem preempt_state_of_fail (r : circular_fifo E) (x : E)
    (h : ¬ r.decrement r.head ≠ r.tail) :
    (r.preempt x).state = r := by
  simp [preempt, h]

theorem arith_push_full (c h t tn : Nat) (h1 : h < c) (h2 : t < c)
    (htn : tn = if t + 1 = c then 0 else t + 1) :
    tn ≠ h ↔ (if h ≤ t then t - h else t + c - h) ≠ c - 1 := by
  subst htn
  split_ifs <;> omega

theorem push_full_iff (r : circular_fifo E) (h : r.WF) :
    r.increment r.tail ≠ r.head ↔ r.size ≠ r.capacity - 1 := by
  rcases h with ⟨h1, h2⟩
  exact arith_push_full r.capacity r.head r.tail (r.increment r.tail) h1 h2
    (increment_eq r r.tail h2)

theorem arith_preempt_full (c h t hn : Nat) (h1 : h < c) (h2 : t < c)
    (hhn : hn = if h = 0 then c - 1 else h - 1) :
    hn ≠ t ↔ (if h ≤ t then t - h else t + c - h) ≠ c - 1 := by
  subst hhn
  split_ifs <;> omega

theorem preempt_full_iff (r : circular_fifo E) (h : r.WF) :
    r.decrement r.head ≠ r.tail ↔ r.size ≠ r.capacity - 1 := by
  rcases h with ⟨h1, h2⟩
  exact arith_preempt_full r.capacity r.head r.tail (r.decrement r.head) h1 h2 rfl

theorem WF_push_state (r : circular_fifo E) (x : E) (hWF : r.WF)
    (hne : r.size ≠ r.capacity - 1) :
    WF { r with
      arr := fun i => if i = r.tail then x else r.arr i
      tail := r.increment r.tail
      count := r.count + 1 } := by
  rcases hWF with ⟨h1, h2⟩
  exact ⟨h1, circular_fifo.increment_lt r r.tail h2⟩

theorem WF_pop_state (r : circular_fifo E) (hWF : r.WF) :
    WF { r with head := r.increment r.head, count := r.count - 1 } := by
  rcases hWF with ⟨h1, h2⟩
  exact ⟨circular_fifo.increment_lt r r.head h1, h2⟩

theorem WF_preempt_state (r : circular_fifo E) (x : E) (hWF : r.WF) :
    WF { r with
      arr := fun i => if i = r.decrement r.head then x else r.arr i
      head := r.decrement r.head
      count := r.count + 1 } := by
  rcases hWF with ⟨h1, h2⟩
  exact ⟨circular_fifo.decrement_lt r r.head h1, h2⟩

theorem arith_size_push (c h t tn : Nat) (h1 : h < c) (h2 : t < c)
    (htn : tn = if t + 1 = c then 0 else t + 1)
    (hne : (if h ≤ t then t - h else t + c - h) ≠ c - 1) :
    (if h ≤ tn then tn - h else tn + c - h)
      = (if h ≤ t then t - h else t + c - h) + 1 := by
  subst htn
  split_ifs at * <;> omega

theorem size_push_state (r : circular_fifo E) (x : E) (hWF : r.WF)
    (hne : r.size ≠ r.capacity - 1) :
    size { r with
      arr := fun i => if i = r.tail then x else r.arr i
      tail := r.increment r.tail
      count := r.count + 1 } = r.size + 1 := by
  rcases hWF with ⟨h1, h2⟩
  unfold size at hne
  exact arith_size_push r.capacity r.head r.tail (r.increment r.tail) h1 h2
    (increment_eq r r.tail h2) hne

theorem arith_size_pop (c h t hn : Nat) (h1 : h < c) (h2 : t < c)
    (hhn : hn = if h + 1 = c then 0 else h + 1)
    (hne : (if h ≤ t then t - h else t + c - h) ≠ 0) :
    (if hn ≤ t then t - hn else t + c - hn)
      = (if h ≤ t then t - h else t + c - h) - 1 := by
  subst hhn
  split_ifs at * <;> omega

theorem size_pop_state (r : circular_fifo E) (hWF : r.WF) (hne : r.size ≠ 0) :
    size { r with head := r.increment r.head, count := r.count - 1 } = r.size - 1 := by
  rcases hWF with ⟨h1, h2⟩
  unfold size at hne
  exact arith_size_pop r.capacity r.head r.tail (r.increment r.head) h1 h2
    (increment_eq r r.head h1) hne

theorem arith_size_preempt (c h t hn : Nat) (h1 : h < c) (h2 : t < c)
    (hhn : hn = if h = 0 then c - 1 else h - 1)
    (hne : (if h ≤ t then t - h else t + c - h) ≠ c - 1) :
    (if hn ≤ t then t - hn else t + c - hn)
      = (if h ≤ t then t - h else t + c - h) + 1 := by
  subst hhn
  split_ifs at * <;> omega

theorem size_preempt_state (r : circular_fifo E) (x : E) (hWF : r.WF)
    (hne : r.size ≠ r.capacity - 1) :
    size { r with
      arr := fun i => if i = r.decrement r.head then x else r.arr i
      head := r.decrement r.head
      count := r.count + 1 } = r.size + 1 := by
  rcases hWF with ⟨h1, h2⟩
  unfold size at hne
  exact arith_size_preempt r.capacity r.head r.tail (r.decrement r.head) h1 h2 rfl hne

theorem toList_push_state (r : circular_fifo E) (x : E) (hWF : r.WF)
    (hne : r.size ≠ r.capacity - 1) :
    toList { r with
      arr := fun i => if i = r.tail then x else r.arr i
      tail := r.increment r.tail
      count := r.count + 1 } = r.toList ++ [x] := by
  have hcpos : 0 < r.capacity := lt_of_le_of_lt (Nat.zero_le _) hWF.1
  have hslt : r.size < r.capacity := by
    have := circular_fifo.size_le_of_WF r hWF
    omega
  have hsz := circular_fifo.size_push_state r x hWF hne
  have hhead := circular_fifo.head_add_size_mod r hWF
  unfold toList
  dsimp only
  rw [hsz, List.range_succ, List.map_append]
  congr 1
  · apply List.map_congr_left
    intro i hi
    have hilt : i < r.size := List.mem_range.mp hi
    have hne2 : (r.head + i) % r.capacity ≠ r.tail := by
      intro hcon
      rw [← hhead] at hcon
      have := circular_fifo.mod_shift_inj r.capacity r.head i r.size
        (by omega) hslt hcon
      omega
    simp [hne2]
  · have hpos : (r.head + r.size) % r.capacity = r.tail := hhead
    simp [hpos]

theorem toList_pop_state (r : circular_fifo E) (hWF : r.WF) (hne : r.head ≠ r.tail) :
    r.toList = r.arr r.head ::
      toList { r with head := r.increment r.head, count := r.count - 1 } := by
  have hs : r.size ≠ 0 := by
    intro h0
    exact hne ((circular_fifo.size_zero_iff r hWF).mp h0)
  obtain ⟨n, hn⟩ := Nat.exists_eq_succ_of_ne_zero hs
  have hs2 := circular_fifo.size_pop_state r hWF hs
  unfold toList
  dsimp only
  rw [hs2, hn]
  have hn2 : n + 1 - 1 = n := by omega
  rw [hn2, List.range_succ_eq_map, List.map_cons, List.map_map]
  congr 1
  · rw [Nat.add_zero, Nat.mod_eq_of_lt hWF.1]
  · apply List.map_congr_left
    intro i hi
    simp only [Function.comp]
    unfold increment
    rw [Nat.mod_add_mod]
    have he : r.head + 1 + i = r.head + Nat.succ i := by omega
    rw [he]

theorem toList_preempt_state (r : circular_fifo E) (x : E) (hWF : r.WF)
    (hne : r.size ≠ r.capacity - 1) :
    toList { r with
      arr := fun i => if i = r.decrement r.head then x else r.arr i
      head := r.decrement r.head
      count := r.count + 1 } = x :: r.toList := by
  have hcpos : 0 < r.capacity := lt_of_le_of_lt (Nat.zero_le _) hWF.1
  have hdlt : r.decrement r.head < r.capacity :=
    circular_fifo.decrement_lt r r.head hWF.1
  have hsle := circular_fifo.size_le_of_WF r hWF
  have hsz := circular_fifo.size_preempt_state r x hWF hne
  have hshift : ∀ i, (r.decrement r.head + (i + 1)) % r.capacity
      = (r.head + i) % r.capacity := by
    intro i
    unfold decrement
    by_cases h0 : r.head = 0
    · rw [h0]
      have hif : (if (0 : Nat) = 0 then r.capacity - 1 else 0 - 1) = r.capacity - 1 :=
        if_pos rfl
      rw [hif]
      have he : r.capacity - 1 + (i + 1) = i + r.capacity := by omega
      rw [he, Nat.add_mod_right, Nat.zero_add]
    · rw [if_neg h0]
      have he : r.head - 1 + (i + 1) = r.head + i := by omega
      rw [he]
  unfold toList
  dsimp only
  rw [hsz, List.range_succ_eq_map, List.map_cons, List.map_map]
  congr 1
  · rw [Nat.add_zero, Nat.mod_eq_of_lt hdlt]
    simp
  · apply List.map_congr_left
    intro i hi
    have hilt : i < r.size := List.mem_range.mp hi
    simp only [Function.comp]
    have he : r.decrement r.head + Nat.succ i = r.decrement r.head + (i + 1) := rfl
    rw [he, hshift i]
    have hne2 : (r.head + i) % r.capacity ≠ r.decrement r.head := by
      intro hcon
      have hd0 : (r.decrement r.head + 0) % r.capacity = r.decrement r.head := by
        simp [Nat.mod_eq_of_lt hdlt]
      have hcon2 : (r.decrement r.head + (i + 1)) % r.capacity
          = (r.decrement r.head + 0) % r.capacity := by
        rw [hshift i, hd0]
        exact hcon
      have := circular_fifo.mod_shift_inj r.capacity (r.decrement r.head) (i + 1) 0
        (by omega) hcpos hcon2
      omega
    simp [hne2]

/-- Combined specification of a successful push. -/
theorem push_spec (r : circular_fifo E) (x : E) (hWF : r.WF)
    (hne : r.size ≠ r.capacity - 1) :
    (r.push x).ok = true ∧
    (r.push x).state.WF ∧
    (r.push x).state.capacity = r.capacity ∧
    (r.push x).state.size = r.size + 1 ∧
    (r.push x).state.toList = r.toList ++ [x] ∧
    (r.push x).state.count = r.count + 1 := by
  have hok : r.increment r.tail ≠ r.head := (circular_fifo.push_full_iff r hWF).mpr hne
  have hst := circular_fifo.push_state_of_ok r x hok
  refine ⟨(circular_fifo.push_ok_iff r x).mpr hok, ?_, ?_, ?_, ?_, ?_⟩
  · rw [hst]
    exact circular_fifo.WF_push_state r x hWF hne
  · rw [hst]
  · rw [hst]
    exact circular_fifo.size_push_state r x hWF hne
  · rw [hst]
    exact circular_fifo.toList_push_state r x hWF hne
  · rw [hst]

/-- Combined specification of a successful pop. -/
theorem pop_spec (r : circular_fifo E) (hWF : r.WF) (hne : r.size ≠ 0) :
    (r.pop).ok = true ∧
    (r.pop).item = some (r.arr r.head) ∧
    (r.pop).state.WF ∧
    (r.pop).state.capacity = r.capacity ∧
    (r.pop).state.size = r.size - 1 ∧
    r.toList = r.arr r.head :: (r.pop).state.toList ∧
    (r.pop).state.count = r.count - 1 := by
  have hht : r.head ≠ r.tail := fun h => hne ((circular_fifo.size_zero_iff r hWF).mpr h)
  obtain ⟨hst, hitem⟩ := circular_fifo.pop_state_of_ok r hht
  refine ⟨(circular_fifo.pop_ok_iff r).mpr hht, hitem, ?_, ?_, ?_, ?_, ?_⟩
  · rw [hst]
    exact circular_fifo.WF_pop_state r hWF
  · rw [hst]
  · rw [hst]
    exact circular_fifo.size_pop_state r hWF hne
  · rw [hst]
    exact circular_fifo.toList_pop_state r hWF hht
  · rw [hst]

/-- Combined specification of a successful preempt. -/
theorem preempt_spec (r : circular_fifo E) (x : E) (hWF : r.WF)
    (hne : r.size ≠ r.capacity - 1) :
    (r.preempt x).ok = true ∧
    (r.preempt x).state.WF ∧
    (r.preempt x).state.capacity = r.capacity ∧
    (r.preempt x).state.size = r.size + 1 ∧
    (r.preempt x).state.toList = x :: r.toList ∧
    (r.preempt x).state.count = r.count + 1 := by
  have hok : r.decrement r.head ≠ r.tail := (circular_fifo.preempt_full_iff r hWF).mpr hne
  have hst := circular_fifo.preempt_state_of_ok r x hok
  refine ⟨(circular_fifo.preempt_ok_iff r x).mpr hok, ?_, ?_, ?_, ?_, ?_⟩
  · rw [hst]
    exact circular_fifo.WF_preempt_state r x hWF
  · rw [hst]
  · rw [hst]
    exact circular_fifo.size_preempt_state r x hWF hne
  · rw [hst]
    exact circular_fifo.toList_preempt_state r x hWF hne
  · rw [hst]

/-- Pushing a whole list into a ring with enough room appends it to the
abstraction. -/
theorem pushAll_spec (r : circular_fifo E) (es : List E) (hWF : r.WF)
    (hroom : r.size + es.length ≤ r.capacity - 1) :
    (pushAll r es).WF ∧
    (pushAll r es).capacity = r.capacity ∧
    (pushAll r es).size = r.size + es.length ∧
    (pushAll r es).toList = r.toList ++ es := by
  induction es generalizing r with
  | nil =>
    refine ⟨hWF, rfl, by simp [pushAll], by simp [pushAll]⟩
  | cons e rest ih =>
    have hne : r.size ≠ r.capacity - 1 := by
      simp at hroom
      omega
    obtain ⟨hok, hWF2, hcap2, hsz2, hlist2, hcnt2⟩ := push_spec r e hWF hne
    have hfold : pushAll r (e :: rest) = pushAll (r.push e).state rest := by
      simp [pushAll]
    obtain ⟨ihWF, ihcap, ihsz, ihlist⟩ := ih (r.push e).state hWF2
      (by rw [hsz2, hcap2]; simp at hroom ⊢; omega)
    rw [hfold]
    refine ⟨ihWF, by rw [ihcap, hcap2], ?_, ?_⟩
    · rw [ihsz, hsz2]
      simp
      omega
    · rw [ihlist, hlist2]
      simp

/-- Draining a well-formed ring with enough fuel returns exactly the
abstraction list, oldest first. -/
theorem drain_eq_toList [Inhabited E] (fuel : Nat) :
    ∀ (r : circular_fifo E), r.WF → r.size ≤ fuel → r.drain fuel = r.toList := by
  induction fuel with
  | zero =>
    intro r hWF hsz
    have h0 : r.size = 0 := by omega
    unfold drain toList
    rw [h0]
    simp
  | succ n ih =>
    intro r hWF hsz
    by_cases hs : r.size = 0
    · have hht : r.head = r.tail := (circular_fifo.size_zero_iff r hWF).mp hs
      have hokf : (r.pop).ok = false := by
        have := circular_fifo.pop_ok_iff r
        simp [hht] at this
        simp [this]
      unfold toList
      rw [hs]
      simp only [drain]
      simp [hokf]
    · obtain ⟨hok, hitem, hWF2, hcap2, hsz2, hlist2, hcnt2⟩ := pop_spec r hWF hs
      have hdr : r.drain (n + 1)
          = (r.pop).item.getD default :: (r.pop).state.drain n := by
        simp only [drain]
        simp [hok]
      rw [hdr, hitem]
      simp only [Option.getD_some]
      rw [ih (r.pop).state hWF2 (by omega)]
      exact hlist2.symm

end circular_fifo

/-- C3: starting from any empty well-formed ring, pushing e1..en in order
(with room to spare for one more element) and then preempting x succeeds,
and the subsequent pops return x first and then e1..en in their original
push order. -/
theorem C3_preempt_order (E : Type) [Inhabited E] (r0 : circular_fifo E)
    (es : List E) (x : E)
    (hWF : r0.WF) (hempty : r0.head = r0.tail)
    (hroom : es.length + 1 ≤ r0.capacity - 1) :
    ((circular_fifo.pushAll r0 es).preempt x).ok = true ∧
    ((circular_fifo.pushAll r0 es).preempt x).state.drain (es.length + 1) = x :: es := by
  have hsize0 : r0.size = 0 := (circular_fifo.size_zero_iff r0 hWF).mpr hempty
  have hlist0 : r0.toList = [] := by
    unfold circular_fifo.toList
    rw [hsize0]
    simp
  obtain ⟨hWF1, hcap1, hsz1, hlist1⟩ := circular_fifo.pushAll_spec r0 es hWF (by omega)
  have hne1 : (circular_fifo.pushAll r0 es).size
      ≠ (circular_fifo.pushAll r0 es).capacity - 1 := by
    rw [hsz1, hcap1, hsize0]
    omega
  obtain ⟨hok, hWF2, hcap2, hsz2, hlist2, hcnt2⟩ :=
    circular_fifo.preempt_spec (circular_fifo.pushAll r0 es) x hWF1 hne1
  refine ⟨hok, ?_⟩
  rw [circular_fifo.drain_eq_toList (es.length + 1) _ hWF2
    (by rw [hsz2, hsz1, hsize0]; omega), hlist2, hlist1, hlist0]
  simp

/-- C3 (witness): push 1, 2, 3 onto the empty blocking ring rC3w, preempt
26; the preempt succeeds and the pop sequence is 26, 1, 2, 3. -/
theorem C3_preempt_order_witness :
    ((circular_fifo.pushAll rC3w [1, 2, 3]).preempt 26).ok = true ∧
    ((circular_fifo.pushAll rC3w [1, 2, 3]).preempt 26).state.drain 4 = [26, 1, 2, 3] :=
  C3_preempt_order Nat rC3w [1, 2, 3] 26 (by decide) (by decide) (by decide)

/-
  Count accounting for C4.
-/

namespace circular_fifo

variable {E : Type}

theorem push_cases (r : circular_fifo E) (x : E) (hWF : r.WF) :
    ((r.push x).ok = true ∧ (r.push x).state.WF ∧
      (r.push x).state.capacity = r.capacity ∧
      (r.push x).state.count = r.count + 1 ∧
      (r.push x).state.size = r.size + 1) ∨
    ((r.push x).ok = false ∧ (r.push x).state = r) := by
  by_cases hfull : r.size = r.capacity - 1
  · right
    have hok : ¬ r.increment r.tail ≠ r.head := by
      rw [circular_fifo.push_full_iff r hWF]
      simp [hfull]
    have hiff := circular_fifo.push_ok_iff r x
    constructor
    · cases hb : (r.push x).ok with
      | false => rfl
      | true => exact absurd (hiff.mp hb) hok
    · exact circular_fifo.push_state_of_fail r x hok
  · left
    obtain ⟨h1, h2, h3, h4, h5, h6⟩ := push_spec r x hWF hfull
    exact ⟨h1, h2, h3, h6, h4⟩

theorem pop_cases (r : circular_fifo E) (hWF : r.WF) :
    ((r.pop).ok = true ∧ (r.pop).state.WF ∧
      (r.pop).state.capacity = r.capacity ∧
      (r.pop).state.count = r.count - 1 ∧
      (r.pop).state.size = r.size - 1 ∧ r.size ≠ 0) ∨
    ((r.pop).ok = false ∧ (r.pop).state = r) := by
  by_cases hs : r.size = 0
  · right
    have hht : r.head = r.tail := (circular_fifo.size_zero_iff r hWF).mp hs
    have hiff := circular_fifo.pop_ok_iff r
    constructor
    · cases hb : (r.pop).ok with
      | false => rfl
      | true => exact absurd (hiff.mp hb) (by simp [hht])
    · exact (circular_fifo.pop_state_of_fail r hht).1
  · left
    obtain ⟨h1, h2, h3, h4, h5, h6, h7⟩ := pop_spec r hWF hs
    exact ⟨h1, h3, h4, h7, h5, hs⟩

theorem preempt_cases (r : circular_fifo E) (x : E) (hWF : r.WF) :
    ((r.preempt x).ok = true ∧ (r.preempt x).state.WF ∧
      (r.preempt x).state.capacity = r.capacity ∧
      (r.preempt x).state.count = r.count + 1 ∧
      (r.preempt x).state.size = r.size + 1) ∨
    ((r.preempt x).ok = false ∧ (r.preempt x).state = r) := by
  by_cases hfull : r.size = r.capacity - 1
  · right
    have hok : ¬ r.decrement r.head ≠ r.tail := by
      rw [circular_fifo.preempt_full_iff r hWF]
      simp [hfull]
    have hiff := circular_fifo.preempt_ok_iff r x
    constructor
    · cases hb : (r.preempt x).ok with
      | false => rfl
      | true => exact absurd (hiff.mp hb) hok
    · exact circular_fifo.preempt_state_of_fail r x hok
  · left
    obtain ⟨h1, h2, h3, h4, h5, h6⟩ := preempt_spec r x hWF hfull
    exact ⟨h1, h2, h3, h6, h4⟩

end circular_fifo

/-- One trace step: the ring stays consistent, its capacity is unchanged,
and the stored count moves by +1 on a write or preempt that returned
SPR_OK, by -1 on a read whose pop retrieved an element, and by 0
otherwise. -/
theorem fstep_elements (E : Type) [Inhabited E]
    (f : sproqet_generic_waitable_fifo E) (op : FOp E) (h : WFC f) :
    WFC (fstep f op).1 ∧
    (fstep f op).1.elements.capacity = f.elements.capacity ∧
    (fstep f op).1.elements.count
      = f.elements.count
        + (match op with
           | .write x => if (f.write x).1 = SPR_OK then (1 : Int) else 0
           | .preempt x => if (f.preempt x).1 = SPR_OK then (1 : Int) else 0
           | .read => if (f.elements.pop).ok then (-1 : Int) else 0
           | _ => 0) := by
  obtain ⟨hWFe, hcnt⟩ := h
  have hsame : ∀ (g : sproqet_generic_waitable_fifo E), g.elements = f.elements →
      WFC g ∧ g.elements.capacity = f.elements.capacity ∧
      g.elements.count = f.elements.count + 0 := by
    intro g hg
    unfold WFC
    rw [hg]
    exact ⟨⟨hWFe, hcnt⟩, rfl, by omega⟩
  cases op with
  | write x =>
    by_cases hf : f.flowEnabled
    · rcases circular_fifo.push_cases f.elements x hWFe with
        ⟨hok, hW, hcap, hcnt2, hsz2⟩ | ⟨hok, hst⟩
      · have hw : f.write x
            = (SPR_OK, sproqet_generic_waitable_fifo.signalRead
                { f with elements := (f.elements.push x).state }) := by
          simp [sproqet_generic_waitable_fifo.write,
            sproqet_generic_waitable_fifo.pushPacket, hf, hok]
        refine ⟨?_, ?_, ?_⟩
        · constructor
          · simpa [fstep, hw] using hW
          · simp only [fstep, hw]
            simp only [sproqet_generic_waitable_fifo.signalRead_elements]
            rw [hcnt2, hsz2, hcnt]
            push_cast
            ring
        · simp only [fstep, hw]
          simp only [sproqet_generic_waitable_fifo.signalRead_elements]
          exact hcap
        · simp only [fstep, hw]
          simp only [sproqet_generic_waitable_fifo.signalRead_elements]
          rw [hcnt2]
          simp [SPR_OK]
      · have hw : f.write x
            = (SPR_FIFOFULL, { f with elements := (f.elements.push x).state }) := by
          simp [sproqet_generic_waitable_fifo.write,
            sproqet_generic_waitable_fifo.pushPacket, hf, hok]
        refine ⟨?_, ?_, ?_⟩
        · constructor
          · simpa [fstep, hw, hst] using hWFe
          · simp only [fstep, hw]
            simp only [hst]
            exact hcnt
        · simp only [fstep, hw]
          simp only [hst]
        · simp only [fstep, hw]
          simp only [hst]
          simp [hw, SPR_OK, SPR_FIFOFULL]
    · have hw : f.write x = (SPR_FLOWDISABLED, f) := by
        simp [sproqet_generic_waitable_fifo.write, hf]
      have helem : (fstep f (FOp.write x)).1 = f := by
        simp [fstep, hw]
      refine ⟨?_, ?_, ?_⟩
      · rw [helem]
        exact ⟨hWFe, hcnt⟩
      · rw [helem]
      · rw [helem]
        simp [hw, SPR_OK, SPR_FLOWDISABLED]
  | preempt x =>
    by_cases hf : f.flowEnabled
    · rcases circular_fifo.preempt_cases f.elements x hWFe with
        ⟨hok, hW, hcap, hcnt2, hsz2⟩ | ⟨hok, hst⟩
      · have hw : f.preempt x
            = (SPR_OK, sproqet_generic_waitable_fifo.signalRead
                { f with elements := (f.elements.preempt x).state }) := by
          simp [sproqet_generic_waitable_fifo.preempt, hf, hok]
        refine ⟨?_, ?_, ?_⟩
        · constructor
          · simpa [fstep, hw] using hW
          · simp only [fstep, hw]
            simp only [sproqet_generic_waitable_fifo.signalRead_elements]
            rw [hcnt2, hsz2, hcnt]
            push_cast
            ring
        · simp only [fstep, hw]
          simp only [sproqet_generic_waitable_fifo.signalRead_elements]
          exact hcap
        · simp only [fstep, hw]
          simp only [sproqet_generic_waitable_fifo.signalRead_elements]
          rw [hcnt2]
          simp [SPR_OK]
      · have hw : f.preempt x
            = (SPR_FIFOFULL, { f with elements := (f.elements.preempt x).state }) := by
          simp [sproqet_generic_waitable_fifo.preempt, hf, hok]
        refine ⟨?_, ?_, ?_⟩
        · constructor
          · simpa [fstep, hw, hst] using hWFe
          · simp only [fstep, hw]
            simp only [hst]
            exact hcnt
        · simp only [fstep, hw]
          simp only [hst]
        · simp only [fstep, hw]
          simp only [hst]
          simp [hw, SPR_OK, SPR_FIFOFULL]
    · have hw : f.preempt x = (SPR_FLOWDISABLED, f) := by
        simp [sproqet_generic_waitable_fifo.preempt, hf]
      have helem : (fstep f (FOp.preempt x)).1 = f := by
        simp [fstep, hw]
      refine ⟨?_, ?_, ?_⟩
      · rw [helem]
        exact ⟨hWFe, hcnt⟩
      · rw [helem]
      · rw [helem]
        simp [hw, SPR_OK, SPR_FLOWDISABLED]
  | read =>
    rcases circular_fifo.pop_cases f.elements hWFe with
      ⟨hok, hW, hcap, hcnt2, hsz2, hsne⟩ | ⟨hok, hst⟩
    · have hr : (fstep f FOp.read).1.elements = (f.elements.pop).state := by
        simp [fstep, sproqet_generic_waitable_fifo.read,
          sproqet_generic_waitable_fifo.popPacket]
      refine ⟨?_, ?_, ?_⟩
      · constructor
        · rw [hr]
          exact hW
        · rw [hr, hcnt2, hsz2, hcnt]
          have : (1 : Int) ≤ (f.elements.size : Int) := by
            exact_mod_cast Nat.one_le_iff_ne_zero.mpr hsne
          push_cast [Nat.cast_sub (Nat.one_le_iff_ne_zero.mpr hsne)]
          ring
      · rw [hr]
        exact hcap
      · rw [hr, hcnt2]
        simp [hok]
        omega
    · have hr : (fstep f FOp.read).1.elements = (f.elements.pop).state := by
        simp [fstep, sproqet_generic_waitable_fifo.read,
          sproqet_generic_waitable_fifo.popPacket]
      refine ⟨?_, ?_, ?_⟩
      · constructor
        · rw [hr, hst]
          exact hWFe
        · rw [hr, hst]
          exact hcnt
      · rw [hr, hst]
      · rw [hr, hst]
        simp [hok]
  | waitForWriteSpace =>
    have helem : (fstep f FOp.waitForWriteSpace).1.elements = f.elements := by
      by_cases hf : f.flowEnabled <;> by_cases hw : f.writeSem = 0 <;>
        simp [fstep, sproqet_generic_waitable_fifo.waitForWriteSpace, semWait, hf, hw]
    exact hsame _ helem
  | tryWaitForWriteData =>
    have helem : (fstep f FOp.tryWaitForWriteData).1.elements = f.elements := by
      by_cases hf : f.flowEnabled <;>
        simp [fstep, sproqet_generic_waitable_fifo.tryWaitForWriteData, semTryWait, hf]
    exact hsame _ helem
  | waitForReadData =>
    have helem : (fstep f FOp.waitForReadData).1.elements = f.elements := by
      cases h3 : f.readSem with
      | none => simp [fstep, sproqet_generic_waitable_fifo.waitForReadData, h3]
      | some c =>
        by_cases hc : c = 0 <;>
          simp [fstep, sproqet_generic_waitable_fifo.waitForReadData, semWait, h3, hc]
    exact hsame _ helem
  | tryWaitForReadData =>
    have helem : (fstep f FOp.tryWaitForReadData).1.elements = f.elements := by
      cases h3 : f.readSem <;>
        simp [fstep, sproqet_generic_waitable_fifo.tryWaitForReadData, semTryWait, h3]
    exact hsame _ helem
  | waitForReadDataTimed ms =>
    have helem : (fstep f (FOp.waitForReadDataTimed ms)).1.elements = f.elements := by
      cases h3 : f.readSem with
      | none => simp [fstep, sproqet_generic_waitable_fifo.waitForReadDataTimed, h3]
      | some c =>
        by_cases hm : ms < 1 <;> by_cases hc : c = 0 <;>
          simp [fstep, sproqet_generic_waitable_fifo.waitForReadDataTimed, semWait, h3, hm, hc]
    exact hsame _ helem
  | waitForWriteSpaceTimed ms =>
    have helem : (fstep f (FOp.waitForWriteSpaceTimed ms)).1.elements = f.elements := by
      by_cases hm : ms < 1 <;> by_cases hf : f.flowEnabled <;> by_cases hw : f.writeSem = 0 <;>
        simp [fstep, sproqet_generic_waitable_fifo.waitForWriteSpaceTimed,
          sproqet_generic_waitable_fifo.waitForWriteSpace, semWait, hm, hf, hw]
    exact hsame _ helem
  | setFlowEnabled b =>
    have helem : (fstep f (FOp.setFlowEnabled b)).1.elements = f.elements := by
      simp [fstep]
    exact hsame _ helem

/-- Across a whole trace the stored count is the initial count plus
successful writes and preempts minus element-retrieving reads. -/
theorem frun_elements (E : Type) [Inhabited E]
    (f : sproqet_generic_waitable_fifo E) (ops : List (FOp E)) (h : WFC f) :
    WFC (frun f ops) ∧
    (frun f ops).elements.capacity = f.elements.capacity ∧
    (frun f ops).elements.count
      = f.elements.count + (succWrites f ops : Int) + (succPreempts f ops : Int)
        - (succReads f ops : Int) := by
  induction ops generalizing f with
  | nil => exact ⟨h, rfl, by simp [frun, succWrites, succPreempts, succReads]⟩
  | cons op rest ih =>
    obtain ⟨h1, hcap1, hdelta⟩ := fstep_elements E f op h
    obtain ⟨h2, hcap2, heq⟩ := ih (fstep f op).1 h1
    have hrun : frun f (op :: rest) = frun (fstep f op).1 rest := rfl
    refine ⟨by rw [hrun]; exact h2, by rw [hrun, hcap2, hcap1], ?_⟩
    rw [hrun, heq]
    cases op with
    | write x =>
      simp only [succWrites, succPreempts, succReads] at hdelta ⊢
      rw [hdelta]
      by_cases hc : (f.write x).1 = SPR_OK <;> simp [hc] <;> push_cast <;> ring
    | preempt x =>
      simp only [succWrites, succPreempts, succReads] at hdelta ⊢
      rw [hdelta]
      by_cases hc : (f.preempt x).1 = SPR_OK <;> simp [hc] <;> push_cast <;> ring
    | read =>
      simp only [succWrites, succPreempts, succReads] at hdelta ⊢
      rw [hdelta]
      by_cases hc : (f.elements.pop).ok = true <;> simp [hc] <;> push_cast <;> ring
    | waitForWriteSpace =>
      simp only [succWrites, succPreempts, succReads] at hdelta ⊢
      rw [hdelta]
      omega
    | tryWaitForWriteData =>
      simp only [succWrites, succPreempts, succReads] at hdelta ⊢
      rw [hdelta]
      omega
    | waitForReadData =>
      simp only [succWrites, succPreempts, succReads] at hdelta ⊢
      rw [hdelta]
      omega
    | tryWaitForReadData =>
      simp only [succWrites, succPreempts, succReads] at hdelta ⊢
      rw [hdelta]
      omega
    | waitForReadDataTimed ms =>
      simp only [succWrites, succPreempts, succReads] at hdelta ⊢
      rw [hdelta]
      omega
    | waitForWriteSpaceTimed ms =>
      simp only [succWrites, succPreempts, succReads] at hdelta ⊢
      rw [hdelta]
      omega
    | setFlowEnabled b =>
      simp only [succWrites, succPreempts, succReads] at hdelta ⊢
      rw [hdelta]
      omega

/-- C4: on any FIFO built by the constructor, after any trace of public
calls the stored count lies in [0, capacity] and equals the number of
writes that returned SPR_OK plus the preempts that returned SPR_OK minus
the reads whose pop retrieved an element. -/
theorem C4_stored_count (E : Type) [Inhabited E] (mode : SP_Circular_Fifo_Mode)
    (capacity : Nat) (readSemaphore : Bool) (ops : List (FOp E)) :
    0 ≤ (frun (sproqet_generic_waitable_fifo.create capacity readSemaphore mode) ops).storedCount ∧
    (frun (sproqet_generic_waitable_fifo.create capacity readSemaphore mode) ops).storedCount
      ≤ (capacity : Int) ∧
    (frun (sproqet_generic_waitable_fifo.create capacity readSemaphore mode) ops).storedCount
      = (succWrites (sproqet_generic_waitable_fifo.create capacity readSemaphore mode) ops : Int)
        + (succPreempts (sproqet_generic_waitable_fifo.create capacity readSemaphore mode) ops : Int)
        - (succReads (sproqet_generic_waitable_fifo.create capacity readSemaphore mode) ops : Int) := by
  have h0 : WFC (sproqet_generic_waitable_fifo.create capacity readSemaphore mode (E := E)) := by
    constructor
    · exact ⟨by simp [sproqet_generic_waitable_fifo.create, circular_fifo.create],
        by simp [sproqet_generic_waitable_fifo.create, circular_fifo.create]⟩
    · simp [sproqet_generic_waitable_fifo.create, circular_fifo.create, circular_fifo.size]
  obtain ⟨⟨hWFe, hcnt⟩, hcap, heq⟩ :=
    frun_elements E (sproqet_generic_waitable_fifo.create capacity readSemaphore mode) ops h0
  have hcap2 : (frun (sproqet_generic_waitable_fifo.create capacity readSemaphore mode) ops).elements.capacity
      = capacity + 1 := by
    rw [hcap]
    simp [sproqet_generic_waitable_fifo.create, circular_fifo.create]
  have hsle := circular_fifo.size_le_of_WF _ hWFe
  rw [hcap2] at hsle
  refine ⟨?_, ?_, ?_⟩
  · rw [sproqet_generic_waitable_fifo.storedCount, circular_fifo.storedCount, hcnt]
    positivity
  · rw [sproqet_generic_waitable_fifo.storedCount, circular_fifo.storedCount, hcnt]
    exact_mod_cast le_trans hsle (by omega)
  · rw [sproqet_generic_waitable_fifo.storedCount, circular_fifo.storedCount, heq]
    simp [sproqet_generic_waitable_fifo.create, circular_fifo.create]

end Arcana
